import Mathlib

/-!
Verification development for the DataNaut tabular import engine
(`portal/datahub_validation.py` and the per-entity importers in
`portal/views.py`).

The Python code is shallowly embedded: cell values become the inductive
type `PyVal`, `Decimal` values are modelled as exact rationals (`Rat`),
`date`/`datetime` objects as a year/month/day triple, dictionaries as
association lists, and code that raises becomes `Except String`.
Character-level string functions (`str.strip`, `str.lower`, the regexes
`[\s\-]+` and `[^\w_]`) are modelled over the ASCII fragment of Unicode,
which is the alphabet the import formats use; `Decimal`'s string grammar
is modelled for finite numeric literals (special values such as NaN and
infinities, and binary floats, are outside the model).
-/

/-- A calendar date, as produced by Python's `datetime.date`. -/
structure PyDate where
  year : Nat
  month : Nat
  day : Nat
deriving DecidableEq, Repr

/-- A raw or converted cell value.  `datetime` keeps only its date part,
which is all the code under scrutiny ever reads from it. -/
inductive PyVal where
  | none
  | str (s : String)
  | int (n : Int)
  | bool (b : Bool)
  | dec (q : Rat)
  | date (d : PyDate)
  | datetime (d : PyDate)
deriving DecidableEq, Repr

/-- Python `str.strip` whitespace set (ASCII fragment). -/
def pyIsSpace (c : Char) : Bool :=
  c = ' ' || c = '\t' || c = '\n' || c = '\r' || c = '\x0b' || c = '\x0c'

/-- Word characters of the regex `\w` (ASCII fragment) together with `_`. -/
def pyIsWord (c : Char) : Bool :=
  c.isAlphanum || c = '_'

/-- Drop leading characters satisfying `p` from both ends. -/
def stripBoth (p : Char → Bool) (cs : List Char) : List Char :=
  ((cs.dropWhile p).reverse.dropWhile p).reverse

/-- Left-pad the decimal digits of `n` with zeros to width `w`. -/
def padNat (w : Nat) (n : Nat) : String :=
  let s := toString n
  String.mk (List.replicate (w - s.length) '0') ++ s

/-- ISO rendering of a date, i.e. Python `str(date(y, m, d))`. -/
def pyDateStr (d : PyDate) : String :=
  padNat 4 d.year ++ "-" ++ padNat 2 d.month ++ "-" ++ padNat 2 d.day

/-- Multiplicity of `p ≥ 2` in `n`, with `n` itself as explicit fuel
(ample, since each step divides by `p`). -/
def factorMultAux (p : Nat) : Nat → Nat → Nat
  | 0, _ => 0
  | fuel + 1, n =>
    if n % p = 0 ∧ n / p ≠ 0 then factorMultAux p fuel (n / p) + 1 else 0

def factorMult (p n : Nat) : Nat :=
  factorMultAux p n n

/-- `str(Decimal(...))` for the exact rational value of a decimal: a
value `m·10^(-k)` is printed in fixed-point notation at the smallest
scale `k` with `den ∣ 10^k`; every `Rat` obtained from a `Decimal` has
such a scale.  (A real `Decimal` additionally carries an exponent —
trailing zeros, or scientific notation for extreme exponents — that
`Rat` cannot represent; those renderings are outside the model.)  A
denominator with a prime factor other than 2 and 5 corresponds to no
`Decimal` and falls back to `num/den`. -/
def decStr (q : Rat) : String :=
  let a := factorMult 2 q.den
  let b := factorMult 5 q.den
  if q.den = 2 ^ a * 5 ^ b then
    let k := max a b
    let sign := if q.num < 0 then "-" else ""
    let digits := toString (q.num.natAbs * 10 ^ k / q.den)
    if k = 0 then sign ++ digits
    else
      let padded :=
        if digits.length ≤ k then
          String.mk (List.replicate (k + 1 - digits.length) '0') ++ digits
        else digits
      sign ++ padded.take (padded.length - k) ++ "." ++
        padded.drop (padded.length - k)
  else toString q.num ++ "/" ++ toString q.den

/-- Python `str(value)` for the modelled value types. -/
def pyStr : PyVal → String
  | .none => "None"
  | .str s => s
  | .int n => toString n
  | .bool b => if b then "True" else "False"
  | .dec q => decStr q
  | .date d => pyDateStr d
  | .datetime d => pyDateStr d ++ " 00:00:00"

/-- Python `repr(value)` as it appears inside the f-string error messages
(string quoting modelled without escape handling; a model `datetime`
carries no time of day, hence the literal `0, 0`). -/
def pyRepr : PyVal → String
  | .str s => "'" ++ s ++ "'"
  | .dec q => "Decimal('" ++ decStr q ++ "')"
  | .date d =>
    "datetime.date(" ++ toString d.year ++ ", " ++ toString d.month ++
      ", " ++ toString d.day ++ ")"
  | .datetime d =>
    "datetime.datetime(" ++ toString d.year ++ ", " ++ toString d.month ++
      ", " ++ toString d.day ++ ", 0, 0)"
  | v => pyStr v

/-- `str(value).strip()` on the model level. -/
def pyStrip (s : String) : String :=
  String.mk (stripBoth pyIsSpace s.toList)

/-- Python `s.lower()` (ASCII fragment). -/
def pyLowerStr (s : String) : String :=
  String.mk (s.toList.map Char.toLower)

/-- Numeric value of a digit string (the strings fed to it are
all-digit by construction). -/
def digitsToNat (cs : List Char) : Nat :=
  cs.foldl (fun a c => a * 10 + (c.toNat - 48)) 0

namespace DatahubValidation

/-! ## `portal/datahub_validation.py`: header normalization -/

/-- Separator characters of the regex `_HEADER_SEP_RE = [\s\-]+`. -/
def isSep (c : Char) : Bool :=
  pyIsSpace c || c = '-'

/-- `_HEADER_SEP_RE.sub("_", h)`: every maximal run of whitespace or
hyphen characters becomes a single underscore.  The flag records whether
the previous character was part of a separator run. -/
def collapseSepsAux : Bool → List Char → List Char
  | _, [] => []
  | inSep, c :: cs =>
    if isSep c then
      if inSep then collapseSepsAux true cs
      else '_' :: collapseSepsAux true cs
    else c :: collapseSepsAux false cs

/-- The string pipeline of `normalize_header` on a non-`None` input:
trim, lowercase, strip BOM, collapse separators, drop non-word
characters, strip surrounding underscores. -/
def normalizeString (s : String) : String :=
  let cs := stripBoth pyIsSpace s.toList
  let cs := cs.map Char.toLower
  let cs := cs.filter (fun c => c ≠ '\uFEFF')
  let cs := collapseSepsAux false cs
  let cs := cs.filter pyIsWord
  let cs := stripBoth (fun c => c = '_') cs
  String.mk cs

/-- `normalize_header(h)`; a `None` header normalizes to `""`. -/
def normalize_header : Option String → String
  | Option.none => ""
  | some h => normalizeString h

end DatahubValidation

/-! ## Decimal string parsing (`decimal.Decimal(s)` on numeric literals) -/

/-- The value `(-1)^neg * m * 10^e` as an exact rational. -/
def decValue (neg : Bool) (m : Nat) (e : Int) : Rat :=
  let mag : Rat :=
    if 0 ≤ e then ((m * 10 ^ e.toNat : Nat) : Rat)
    else mkRat (Int.ofNat m) (10 ^ (-e).toNat)
  if neg then -mag else mag

/-- Parse an optional exponent suffix `[eE][+-]?digits` followed by end
of input; `some 0` when the input is empty. -/
def parseExpPart : List Char → Option Int
  | [] => some 0
  | c :: rest =>
    if c = 'e' || c = 'E' then
      let (neg, ds) :=
        match rest with
        | '+' :: r => (false, r)
        | '-' :: r => (true, r)
        | r => (false, r)
      let digs := ds.takeWhile Char.isDigit
      if digs ≠ [] && ds.dropWhile Char.isDigit = [] then
        some (if neg then -(digitsToNat digs : Int) else (digitsToNat digs : Int))
      else Option.none
    else Option.none

/-- `Decimal(<string>)` on a character list: the constructor strips
whitespace, removes underscores, then parses
`[+-]? (digits [. digits?] | . digits) ([eE] [+-]? digits)?`.
Special values (NaN, infinities) are outside the model. -/
def decimalOfChars (cs0 : List Char) : Option Rat :=
  let cs := (stripBoth pyIsSpace cs0).filter (fun c => c ≠ '_')
  let (neg, cs) :=
    match cs with
    | '+' :: rest => (false, rest)
    | '-' :: rest => (true, rest)
    | rest => (false, rest)
  let intPart := cs.takeWhile Char.isDigit
  let rest1 := cs.dropWhile Char.isDigit
  let (fracPart, rest2) :=
    match rest1 with
    | '.' :: r => (r.takeWhile Char.isDigit, r.dropWhile Char.isDigit)
    | r => ([], r)
  if intPart = [] && fracPart = [] then Option.none
  else
    match parseExpPart rest2 with
    | some e =>
      some (decValue neg (digitsToNat (intPart ++ fracPart)) (e - fracPart.length))
    | Option.none => Option.none

namespace DatahubValidation

/-- `parse_decimal` from `datahub_validation.py`.  `Decimal` values are
rationals; `int` (which includes `bool` in Python) round-trips through
`Decimal(str(value))`, which for a genuine `int` is exact and for a
`bool` raises `InvalidOperation` on the string `True`/`False`. -/
def parse_decimal : PyVal → Except String (Option Rat)
  | .none => .ok Option.none
  | .dec q => .ok (some q)
  | .int n => .ok (some (n : Rat))
  | .bool _ => .error "decimal.InvalidOperation"
  | v =>
    let s := pyStrip (pyStr v)
    if s = "" || s = "—" || s = "-" then .ok Option.none
    else
      let cs := s.toList.filter (fun c => c ≠ ' ')
      let cs :=
        if cs.contains ',' && cs.contains '.' then cs.filter (fun c => c ≠ ',')
        else cs.map (fun c => if c = ',' then '.' else c)
      match decimalOfChars cs with
      | some q => .ok (some q)
      | Option.none => .error ("Invalid decimal: " ++ pyRepr v)

end DatahubValidation

/-! ## Date parsing (`datetime.strptime` / `datetime.fromisoformat`) -/

/-- Gregorian leap year. -/
def isLeap (y : Nat) : Bool :=
  y % 4 = 0 && (y % 100 ≠ 0 || y % 400 = 0)

/-- Number of days in month `m` of year `y` (months counted 1–12). -/
def daysInMonth (y m : Nat) : Nat :=
  if m = 2 then (if isLeap y then 29 else 28)
  else if m = 4 || m = 6 || m = 9 || m = 11 then 30
  else 31

/-- A valid `datetime.date` triple (years 1–9999, as in CPython). -/
def validDate (y m d : Nat) : Bool :=
  1 ≤ y && y ≤ 9999 && 1 ≤ m && m ≤ 12 && 1 ≤ d && d ≤ daysInMonth y m

/-- Field order of the date formats used by the code: `%Y-%m-%d` style
(`ymd`), `%d/%m/%Y` style (`dmy`), `%m/%d/%Y` style (`mdy`). -/
inductive FOrder where
  | ymd
  | dmy
  | mdy
deriving DecidableEq, Repr

/-- Split a character list on a separator character, Python
`s.split(sep)` style (`""` splits to `[""]`). -/
def splitOnChar (sep : Char) (cs : List Char) : List (List Char) :=
  cs.foldr
    (fun c acc =>
      match acc with
      | g :: gs => if c = sep then [] :: g :: gs else (c :: g) :: gs
      | [] => [[c]])
    [[]]

/-- A `strptime` `%Y` field: CPython compiles `%Y` to the regex
`(\d\d\d\d)`, so exactly four digits are required (`"999"` or
`"20251"` fail the format). -/
def yearField (cs : List Char) : Option Nat :=
  match cs with
  | [a, b, c, d] =>
    if a.isDigit && b.isDigit && c.isDigit && d.isDigit then
      some (digitsToNat [a, b, c, d])
    else Option.none
  | _ => Option.none

/-- A `strptime` `%m` field: CPython compiles `%m` to
`(1[0-2]|0[1-9]|[1-9])`.  Against a digits-only field delimited by the
separator this accepts exactly the one- or two-digit strings whose
value is a valid month; the value range is checked in `validDate`
below (out-of-range values make `date` raise `ValueError`, which the
caller's `except` treats identically to a regex mismatch). -/
def monthField (cs : List Char) : Option Nat :=
  if cs ≠ [] && cs.length ≤ 2 && cs.all Char.isDigit then
    some (digitsToNat cs)
  else Option.none

/-- A `strptime` `%d` field: CPython compiles `%d` to
`(3[01]|[12]\d|0[1-9]|[1-9]| [1-9])` — one or two digits, or a space
followed by a single non-zero digit (so `" 5"` is a valid day field).
As for `%m`, the digit alternatives are modelled as 1–2 digits with
the value range checked in `validDate`. -/
def dayField (cs : List Char) : Option Nat :=
  match cs with
  | [' ', c] =>
    if c.isDigit && c ≠ '0' then some (digitsToNat [c]) else Option.none
  | _ =>
    if cs ≠ [] && cs.length ≤ 2 && cs.all Char.isDigit then
      some (digitsToNat cs)
    else Option.none

/-- `datetime.strptime(s, fmt).date()` for the purely numeric formats
used by the code (three numeric fields joined by one separator
character; `%Y` is exactly four digits, `%m` one or two digits, `%d`
one or two digits or a space-padded single digit). -/
def strptimeDate (ord : FOrder) (sep : Char) (s : String) : Option PyDate :=
  match splitOnChar sep s.toList with
  | [a, b, c] =>
    let (ys, ms, ds) :=
      match ord with
      | .ymd => (a, b, c)
      | .dmy => (c, b, a)
      | .mdy => (c, a, b)
    match yearField ys, monthField ms, dayField ds with
    | some y, some m, some d =>
      if validDate y m d then some ⟨y, m, d⟩ else Option.none
    | _, _, _ => Option.none
  | _ => Option.none

/-- Two leading digits with a bound, returning the rest of the input. -/
def twoDigitsLt (bound : Nat) : List Char → Option (Nat × List Char)
  | a :: b :: rest =>
    if a.isDigit && b.isDigit then
      let n := digitsToNat [a, b]
      if n < bound then some (n, rest) else Option.none
    else Option.none
  | _ => Option.none

/-- The `HH[:MM[:SS[.fff[fff]]]][±HH:MM]` time grammar accepted by
`datetime.fromisoformat` in CPython 3.7–3.10 (3.11 widened the
grammar: `Z` suffix, 1–6-digit fractions, and more; the model fixes
the stricter pre-3.11 grammar.  Only well-formedness matters
downstream, the time of day is discarded by `.date()`). -/
def isoTimeOk (cs : List Char) : Bool :=
  match twoDigitsLt 24 cs with
  | Option.none => false
  | some (_, rest) =>
    let afterMinSec :=
      match rest with
      | ':' :: r1 =>
        match twoDigitsLt 60 r1 with
        | Option.none => Option.none
        | some (_, r2) =>
          match r2 with
          | ':' :: r3 =>
            match twoDigitsLt 60 r3 with
            | Option.none => Option.none
            | some (_, r4) =>
              match r4 with
              | '.' :: r5 =>
                let digs := r5.takeWhile Char.isDigit
                if digs.length = 3 || digs.length = 6 then
                  some (r5.dropWhile Char.isDigit)
                else Option.none
              | r5 => some r5
          | r3 => some r3
      | r1 => some r1
    match afterMinSec with
    | Option.none => false
    | some [] => true
    | some (sgn :: r6) =>
      if sgn = '+' || sgn = '-' then
        match twoDigitsLt 24 r6 with
        | some (_, ':' :: r7) =>
          match twoDigitsLt 60 r7 with
          | some (_, []) => true
          | _ => false
        | _ => false
      else false

/-- `datetime.fromisoformat(s).date()`: an exact `YYYY-MM-DD` prefix,
optionally followed by a one-character separator and a time part
(the CPython 3.7–3.10 grammar; 3.11 additionally accepts compact
`YYYYMMDD` dates and the wider time grammar noted at `isoTimeOk`). -/
def fromisoformatModel (s : String) : Option PyDate :=
  match s.toList with
  | y1 :: y2 :: y3 :: y4 :: '-' :: m1 :: m2 :: '-' :: d1 :: d2 :: rest =>
    if [y1, y2, y3, y4, m1, m2, d1, d2].all Char.isDigit then
      let y := digitsToNat [y1, y2, y3, y4]
      let m := digitsToNat [m1, m2]
      let d := digitsToNat [d1, d2]
      if validDate y m d then
        match rest with
        | [] => some ⟨y, m, d⟩
        | _ :: timecs => if isoTimeOk timecs then some ⟨y, m, d⟩ else Option.none
      else Option.none
    else Option.none
  | _ => Option.none

namespace DatahubValidation

/-- `_ALLOWED_DATE_FORMATS`, in source order: `%Y-%m-%d`, `%d.%m.%Y`,
`%d/%m/%Y`, `%m/%d/%Y`, `%d-%m-%Y`, `%m-%d-%Y`. -/
def _ALLOWED_DATE_FORMATS : List (FOrder × Char) :=
  [(.ymd, '-'), (.dmy, '.'), (.dmy, '/'), (.mdy, '/'), (.dmy, '-'), (.mdy, '-')]

/-- `parse_date` from `datahub_validation.py`: native dates pass
through, a native datetime is narrowed to its date, the special blank
strings map to `None`, otherwise the allowed formats are tried in order
and `fromisoformat` is the last resort. -/
def parse_date : PyVal → Except String (Option PyDate)
  | .none => .ok Option.none
  | .date d => .ok (some d)
  | .datetime d => .ok (some d)
  | v =>
    let s := pyStrip (pyStr v)
    if s = "" || s = "—" || s = "-" then .ok Option.none
    else
      match _ALLOWED_DATE_FORMATS.findSome? (fun f => strptimeDate f.1 f.2 s) with
      | some d => .ok (some d)
      | Option.none =>
        match fromisoformatModel s with
        | some d => .ok (some d)
        | Option.none => .error ("Invalid date: " ++ pyRepr v)

/-- `parse_str` from `datahub_validation.py`. -/
def parse_str : PyVal → String
  | .none => ""
  | v => pyStrip (pyStr v)

end DatahubValidation

/-! ## Validation engine (`validate_rows`) -/

/-- A raw row as handed to the engine: a dictionary from original header
strings to cell values.  `csv.DictReader` can produce a `None` key (its
`restkey`), hence the optional key. -/
abbrev RawKey := Option String

abbrev RawRow := List (RawKey × PyVal)

/-- A clean row: canonical field name to converted value, in insertion
order, as a Python dict. -/
abbrev CleanRow := List (String × PyVal)

/-- `d.get(k)` on a clean row: Python returns `None` both when the key
is absent and when the stored value is `None`. -/
def getVal (row : CleanRow) (k : String) : PyVal :=
  match row.find? (fun p => p.1 = k) with
  | some p => p.2
  | Option.none => .none

/-- `d[k] = v` on a clean row: replace in place if present, else append. -/
def setVal (row : CleanRow) (k : String) (v : PyVal) : CleanRow :=
  if row.any (fun p => p.1 = k) then
    row.map (fun p => if p.1 = k then (k, v) else p)
  else row ++ [(k, v)]

namespace DatahubValidation

structure ValidationErrorItem where
  row : Nat
  column : String
  message : String
deriving DecidableEq, Repr

structure ValidationResult where
  clean_rows : List CleanRow
  errors : List ValidationErrorItem
  warnings : List String
  headers_in_file : List (Option String)

/-- A per-field converter; raising becomes `Except.error`. -/
abbrev Converter := PyVal → Except String PyVal

structure DatasetSpec where
  key : String
  label : String
  header_map : List (String × String)
  converters : List (String × Converter)
  required : List String
  allow_unknown_columns : Bool

/-- `spec.header_map.get(k_norm)` followed by the `if not internal`
guard: the canonical field a raw key is mapped to, if any. -/
def mappedField (spec : DatasetSpec) (rk : RawKey) : Option String :=
  let k_norm := normalize_header rk
  if k_norm = "" then Option.none
  else
    match spec.header_map.find? (fun p => p.1 = k_norm) with
    | some p => if p.2 = "" then Option.none else some p.2
    | Option.none => Option.none

/-- `spec.converters.get(internal, lambda x: x)`. -/
def convFor (spec : DatasetSpec) (internal : String) : Converter :=
  match spec.converters.find? (fun p => p.1 = internal) with
  | some p => p.2
  | Option.none => fun v => .ok v

/-- One iteration of the per-cell loop of `validate_rows`: map the raw
key, convert, store the value or record the error. -/
def processCell (spec : DatasetSpec) (idx : Nat)
    (acc : CleanRow × List ValidationErrorItem) (rk : RawKey) (rv : PyVal) :
    CleanRow × List ValidationErrorItem :=
  match mappedField spec rk with
  | Option.none => acc
  | some internal =>
    match convFor spec internal rv with
    | .ok v => (setVal acc.1 internal v, acc.2)
    | .error e => (acc.1, acc.2 ++ [⟨idx, internal, e⟩])

/-- `v is None or (isinstance(v, str) and v.strip() == "")`. -/
def isBlankVal : PyVal → Bool
  | .none => true
  | .str s => s.toList.all pyIsSpace
  | _ => false

/-- The required-field pass over a finished clean row. -/
def requiredErrors (spec : DatasetSpec) (idx : Nat) (clean : CleanRow) :
    List ValidationErrorItem :=
  spec.required.filterMap (fun req =>
    if isBlankVal (getVal clean req) then
      some ⟨idx, req, "Required value is missing."⟩
    else Option.none)

/-- The body of the row loop of `validate_rows` for one row with its
1-based index. -/
def processRow (spec : DatasetSpec) (idx : Nat) (raw : RawRow) :
    CleanRow × List ValidationErrorItem :=
  let cellres := raw.foldl (fun acc kv => processCell spec idx acc kv.1 kv.2) ([], [])
  (cellres.1, cellres.2 ++ requiredErrors spec idx cellres.1)

/-- The row loop of `validate_rows`, starting at index `idx`. -/
def validateLoop (spec : DatasetSpec) (idx : Nat) :
    List RawRow → List CleanRow × List ValidationErrorItem
  | [] => ([], [])
  | r :: rs =>
    let here := processRow spec idx r
    let rest := validateLoop spec (idx + 1) rs
    (here.1 :: rest.1, here.2 ++ rest.2)

/-- The batch-level warnings of `validate_rows` (unknown columns and
required columns missing from the file). -/
def batchWarnings (spec : DatasetSpec) (headers_in_file : List (Option String)) :
    List String :=
  let normalized := (headers_in_file.filterMap id).map normalizeString
  let unknown := normalized.filter (fun h =>
    (spec.header_map.find? (fun p => p.1 = h)).isNone && h ≠ "")
  let mapped := normalized.filterMap (fun h =>
    (spec.header_map.find? (fun p => p.1 = h)).map (fun p => p.2))
  let w1 : List String :=
    if unknown ≠ [] && !spec.allow_unknown_columns then
      ["Unknown columns will be ignored: " ++
        String.intercalate ", " (unknown.dedup.insertionSort (fun a b => a ≤ b))]
    else []
  let w2 : List String :=
    spec.required.filterMap (fun req =>
      if req ∉ mapped then
        some ("Missing required column (or alias) in file: " ++ req)
      else Option.none)
  w1 ++ w2

/-- `validate_rows(raw_rows, headers_in_file, spec)`. -/
def validate_rows (raw_rows : List RawRow) (headers_in_file : List (Option String))
    (spec : DatasetSpec) : ValidationResult :=
  let looped := validateLoop spec 1 raw_rows
  { clean_rows := looped.1
    errors := looped.2
    warnings := batchWarnings spec headers_in_file
    headers_in_file := headers_in_file }

/-- The `parse_str` converter as it appears in `DatasetSpec.converters`
(it never raises). -/
def strConv : Converter := fun v => .ok (.str (parse_str v))

/-- `COST_CENTERS_SPEC` from `datahub_validation.py`. -/
def COST_CENTERS_SPEC : DatasetSpec where
  key := "cost_centers"
  label := "Cost centers"
  header_map :=
    [("code", "code"), ("cost_center_code", "code"), ("costcentre_code", "code"),
     ("cost_center", "code"), ("name", "name"), ("cost_center_name", "name"),
     ("business_unit", "business_unit"), ("bu", "business_unit"),
     ("region", "region"), ("default_approver", "default_approver"),
     ("default_approver_username", "default_approver")]
  converters :=
    [("code", strConv), ("name", strConv), ("business_unit", strConv),
     ("region", strConv), ("default_approver", strConv)]
  required := ["code", "name"]
  allow_unknown_columns := true

end DatahubValidation

namespace Views

/-! ## `portal/views.py`: helpers -/

/-- `_as_str(v)` from `views.py`. -/
def _as_str : PyVal → String
  | .none => ""
  | v => pyStrip (pyStr v)

/-- `_parse_date(value)` from `views.py`: ISO first, then `%Y-%m-%d`,
`%d/%m/%Y`, `%m/%d/%Y`. -/
def _parse_date : PyVal → Except String (Option PyDate)
  | .none => .ok Option.none
  | .datetime d => .ok (some d)
  | .date d => .ok (some d)
  | v =>
    let s := _as_str v
    if s = "" then .ok Option.none
    else
      match fromisoformatModel s with
      | some d => .ok (some d)
      | Option.none =>
        match [((FOrder.ymd : FOrder), '-'), (.dmy, '/'), (.mdy, '/')].findSome?
            (fun f => strptimeDate f.1 f.2 s) with
        | some d => .ok (some d)
        | Option.none => .error ("Invalid date format: " ++ s ++ ". Use YYYY-MM-DD.")

/-- `_parse_decimal(value)` from `views.py`. -/
def _parse_decimal (v : PyVal) : Except String (Option Rat) :=
  let s := _as_str v
  if s = "" then .ok Option.none
  else
    let s2 := String.mk (s.toList.map (fun c => if c = ',' then '.' else c))
    match decimalOfChars s2.toList with
    | some q => .ok (some q)
    | Option.none => .error ("Invalid decimal value: " ++ s2)

/-- `int(Decimal(...))`: truncation toward zero. -/
def ratTruncToInt (q : Rat) : Int :=
  q.num.tdiv (Int.ofNat q.den)

/-- `_parse_int(value)` from `views.py`. -/
def _parse_int : PyVal → Except String (Option Int)
  | .none => .ok Option.none
  | .bool _ => .ok Option.none
  | .int n => .ok (some n)
  | v =>
    let s := _as_str v
    if s = "" then .ok Option.none
    else
      match decimalOfChars (s.toList.map (fun c => if c = ',' then '.' else c)) with
      | some q => .ok (some (ratTruncToInt q))
      | Option.none => .error ("Invalid integer value: " ++ s)

/-- A row handed to an importer: a dict from (already normalized) column
names to raw cell values. -/
abbrev VRow := List (String × PyVal)

/-- `r.get(k)` (Python returns `None` for a missing key). -/
def rget (r : VRow) (k : String) : PyVal :=
  match r.find? (fun p => p.1 = k) with
  | some p => p.2
  | Option.none => .none

/-- `_as_str(r.get(k))`, the idiom every importer uses. -/
def sv (r : VRow) (k : String) : String :=
  _as_str (rget r k)

def rowKeys (r : VRow) : List String :=
  r.map (fun p => p.1)

/-- `name__iexact` matching: case-insensitive equality. -/
def iexact (a b : String) : Bool :=
  pyLowerStr a = pyLowerStr b

/-- `_require_columns(rows, required)` from `views.py`: inspects only
the first row. -/
def _require_columns (rows : List VRow) (required : List String) : Except String Unit :=
  match rows with
  | [] => .ok ()
  | r0 :: _ =>
    let missing := required.filter (fun c => !(rowKeys r0).contains c)
    if missing ≠ [] then
      .error ("Missing required columns: " ++ String.intercalate ", " missing)
    else .ok ()

/-- Replace the first list element satisfying `p` (the record
`queryset.first()` returned, mutated in place and saved). -/
def updateFirst (p : α → Bool) (f : α → α) : List α → List α
  | [] => []
  | x :: xs => if p x then f x :: xs else x :: updateFirst p f xs

/-! ## Vendors importer -/

/-- The `Vendor` fields touched by `_import_vendors`. -/
structure Vendor where
  name : String
  vendor_type : String
  tags : String
  primary_contact_name : String
  primary_contact_email : String
  website : String
  notes : String
deriving DecidableEq, Repr

/-- `Vendor.objects.create(name=name, **defaults)`. -/
def newVendor (name : String) (r : VRow) : Vendor :=
  { name := name
    vendor_type := sv r "vendor_type"
    tags := sv r "tags"
    primary_contact_name := sv r "primary_contact_name"
    primary_contact_email := sv r "primary_contact_email"
    website := sv r "website"
    notes := sv r "notes" }

/-- The update branch of `_import_vendors`: `setattr` for every
non-empty default, then `obj.name = name`. -/
def applyVendorUpdate (obj : Vendor) (r : VRow) (name : String) : Vendor :=
  let upd := fun (cur v : String) => if v ≠ "" then v else cur
  { name := name
    vendor_type := upd obj.vendor_type (sv r "vendor_type")
    tags := upd obj.tags (sv r "tags")
    primary_contact_name := upd obj.primary_contact_name (sv r "primary_contact_name")
    primary_contact_email := upd obj.primary_contact_email (sv r "primary_contact_email")
    website := upd obj.website (sv r "website")
    notes := upd obj.notes (sv r "notes") }

/-- The row loop of `_import_vendors`. -/
def importVendorsLoop (st : List Vendor) (created updated : Nat) :
    List VRow → List Vendor × Nat × Nat
  | [] => (st, created, updated)
  | r :: rs =>
    let name := sv r "name"
    if name = "" then importVendorsLoop st created updated rs
    else if st.any (fun v => iexact v.name name) then
      importVendorsLoop
        (updateFirst (fun v => iexact v.name name) (fun v => applyVendorUpdate v r name) st)
        created (updated + 1) rs
    else importVendorsLoop (st ++ [newVendor name r]) (created + 1) updated rs

/-- `_import_vendors(rows, request_user)` over a vendor table. -/
def _import_vendors (st : List Vendor) (rows : List VRow) :
    Except String (List Vendor × Nat × Nat) :=
  match _require_columns rows ["name"] with
  | .error e => .error e
  | .ok _ => .ok (importVendorsLoop st 0 0 rows)

/-! ## Cost centers importer -/

/-- The `CostCenter` fields touched by `_import_cost_centers`. -/
structure CostCenter where
  code : String
  name : String
  business_unit : String
  region : String
deriving DecidableEq, Repr

/-- The row loop of `_import_cost_centers`:
`update_or_create(code=code, defaults=...)` sets every default field on
the found record. -/
def importCostCentersLoop (st : List CostCenter) (created updated : Nat) :
    List VRow → List CostCenter × Nat × Nat
  | [] => (st, created, updated)
  | r :: rs =>
    let code := sv r "code"
    let name := sv r "name"
    if code = "" || name = "" then importCostCentersLoop st created updated rs
    else
      let bu := sv r "business_unit"
      let rg := sv r "region"
      if st.any (fun c => c.code = code) then
        importCostCentersLoop
          (updateFirst (fun c => c.code = code)
            (fun c => { c with name := name, business_unit := bu, region := rg }) st)
          created (updated + 1) rs
      else importCostCentersLoop (st ++ [⟨code, name, bu, rg⟩]) (created + 1) updated rs

/-- `_import_cost_centers(rows, request_user)`. -/
def _import_cost_centers (st : List CostCenter) (rows : List VRow) :
    Except String (List CostCenter × Nat × Nat) :=
  match _require_columns rows ["code", "name"] with
  | .error e => .error e
  | .ok _ => .ok (importCostCentersLoop st 0 0 rows)

/-! ## Services importer -/

/-- The `Service` fields touched by `_import_services`; the foreign key
to the vendor is its index in the vendor table. -/
structure Service where
  vendorIdx : Nat
  name : String
  category : String
  service_code : String
  default_currency : String
  default_billing_frequency : String
  owner_display : String
  allocation_split : String
  list_price : Option Rat
deriving DecidableEq, Repr

/-- `if _as_str(lp): defaults["list_price"] = _parse_decimal(lp)`:
`some` iff the key ends up in `defaults`. -/
def serviceListPrice (r : VRow) : Except String (Option Rat) :=
  let lp := rget r "list_price"
  if _as_str lp ≠ "" then
    match _parse_decimal lp with
    | .ok q => .ok q
    | .error e => .error e
  else .ok Option.none

/-- `Service.objects.create(vendor=vendor, name=name, **defaults)`. -/
def newService (vi : Nat) (name : String) (r : VRow) (lp : Option Rat) : Service :=
  { vendorIdx := vi
    name := name
    category := sv r "category"
    service_code := sv r "service_code"
    default_currency := sv r "default_currency"
    default_billing_frequency := sv r "default_billing_frequency"
    owner_display := sv r "owner_display"
    allocation_split := sv r "allocation_split"
    list_price := lp }

/-- The update branch of `_import_services`: `obj.name = name`, then
`setattr` for every default that is neither `None` nor `""`. -/
def applyServiceUpdate (obj : Service) (r : VRow) (name : String) (lp : Option Rat) : Service :=
  let upd := fun (cur v : String) => if v ≠ "" then v else cur
  { obj with
    name := name
    category := upd obj.category (sv r "category")
    service_code := upd obj.service_code (sv r "service_code")
    default_currency := upd obj.default_currency (sv r "default_currency")
    default_billing_frequency := upd obj.default_billing_frequency (sv r "default_billing_frequency")
    owner_display := upd obj.owner_display (sv r "owner_display")
    allocation_split := upd obj.allocation_split (sv r "allocation_split")
    list_price := match lp with | some q => some q | Option.none => obj.list_price }

/-- The row loop of `_import_services`. -/
def importServicesLoop (vendors : List Vendor) (svcs : List Service)
    (created updated : Nat) : List VRow → Except String (List Service × Nat × Nat)
  | [] => .ok (svcs, created, updated)
  | r :: rs =>
    let vendor_name := sv r "vendor_name"
    let name := sv r "name"
    if vendor_name = "" || name = "" then
      importServicesLoop vendors svcs created updated rs
    else
      match vendors.findIdx? (fun v => iexact v.name vendor_name) with
      | Option.none =>
        .error ("Vendor not found for service: " ++ vendor_name ++
          " (service=" ++ name ++ "). Import vendors first.")
      | some vi =>
        match serviceListPrice r with
        | .error e => .error e
        | .ok lp =>
          if svcs.any (fun s => s.vendorIdx = vi && iexact s.name name) then
            importServicesLoop vendors
              (updateFirst (fun s => s.vendorIdx = vi && iexact s.name name)
                (fun s => applyServiceUpdate s r name lp) svcs)
              created (updated + 1) rs
          else
            importServicesLoop vendors (svcs ++ [newService vi name r lp])
              (created + 1) updated rs

/-- `_import_services(rows, request_user)`. -/
def _import_services (vendors : List Vendor) (svcs : List Service) (rows : List VRow) :
    Except String (List Service × Nat × Nat) :=
  match _require_columns rows ["vendor_name", "name"] with
  | .error e => .error e
  | .ok _ => importServicesLoop vendors svcs 0 0 rows

/-- The `@transaction.atomic` wrapper: on any raised exception the whole
batch rolls back and the service table is unchanged. -/
def importServicesAtomic (vendors : List Vendor) (svcs : List Service) (rows : List VRow) :
    List Service × Except String (Nat × Nat) :=
  match _import_services vendors svcs rows with
  | .ok (svcs2, c, u) => (svcs2, .ok (c, u))
  | .error e => (svcs, .error e)

/-! ## Contracts importer -/

/-- The `Contract` fields touched by `_import_contracts`; users and the
vendor foreign key are modelled by numeric identifiers. -/
structure Contract where
  owner : Nat
  vendorIdx : Nat
  contract_name : String
  contract_id : String
  contract_type : String
  entity : String
  currency : String
  status : String
  uploaded_by : Nat
  annual_value : Option Rat
  start_date : Option PyDate
  end_date : Option PyDate
  renewal_date : Option PyDate
  notice_period_days : Option Int
  notice_date : Option PyDate
deriving DecidableEq, Repr

/-- The `defaults` dict built by `_import_contracts`; an `Option` field
is `some` exactly when the corresponding key was added to the dict. -/
structure ContractDefaults where
  contract_id : String
  contract_type : String
  entity : String
  currency : String
  status : String
  annual_value : Option Rat
  start_date : Option PyDate
  end_date : Option PyDate
  renewal_date : Option PyDate
  notice_period_days : Option Int
  notice_date : Option PyDate
deriving DecidableEq, Repr

/-- `if _as_str(v): defaults[k] = _parse_decimal(v)` for column `k`. -/
def optParseDec (r : VRow) (k : String) : Except String (Option Rat) :=
  let v := rget r k
  if _as_str v ≠ "" then
    match _parse_decimal v with
    | .ok q => .ok q
    | .error e => .error e
  else .ok Option.none

/-- `if _as_str(v): defaults[k] = _parse_date(v)` for column `k`. -/
def optParseDate (r : VRow) (k : String) : Except String (Option PyDate) :=
  let v := rget r k
  if _as_str v ≠ "" then
    match _parse_date v with
    | .ok d => .ok d
    | .error e => .error e
  else .ok Option.none

/-- The `notice_period_days` block: parse and check membership in
`(30, 60, 90, 120)`. -/
def contractNoticePeriod (r : VRow) (contract_name : String) :
    Except String (Option Int) :=
  let npd := rget r "notice_period_days"
  if _as_str npd ≠ "" then
    match _parse_int npd with
    | .error e => .error e
    | .ok n =>
      if n = some 30 || n = some 60 || n = some 90 || n = some 120 then .ok n
      else
        .error ("Invalid notice_period_days '" ++ _as_str npd ++ "' for contract '" ++
          contract_name ++ "'. Allowed: 30, 60, 90, 120.")
  else .ok Option.none

/-- Build the row's `defaults` dict, in source order (so the first
parse failure wins, as in Python). -/
def contractRowDefaults (r : VRow) (contract_id contract_name : String) :
    Except String ContractDefaults := do
  let av ← optParseDec r "annual_value"
  let sd ← optParseDate r "start_date"
  let ed ← optParseDate r "end_date"
  let rd ← optParseDate r "renewal_date"
  let npd ← contractNoticePeriod r contract_name
  let nd ← optParseDate r "notice_date"
  pure
    { contract_id := contract_id
      contract_type := sv r "contract_type"
      entity := sv r "entity"
      currency := sv r "currency"
      status := sv r "status"
      annual_value := av
      start_date := sd
      end_date := ed
      renewal_date := rd
      notice_period_days := npd
      notice_date := nd }

/-- Numeric key for comparing dates (valid dates have month/day < 100). -/
def dateKey (d : PyDate) : Nat :=
  d.year * 10000 + d.month * 100 + d.day

/-- The notice/end-date cross-field checks of `_import_contracts`. -/
def noticeCheck (dfl : ContractDefaults) (obj : Option Contract)
    (contract_name : String) : Except String Unit :=
  let end_dt : Option PyDate :=
    match dfl.end_date with
    | some d => some d
    | Option.none => match obj with | some o => o.end_date | Option.none => Option.none
  let notice_dt : Option PyDate :=
    match dfl.notice_date with
    | some d => some d
    | Option.none => match obj with | some o => o.notice_date | Option.none => Option.none
  match notice_dt, end_dt with
  | some _, Option.none =>
    .error ("Contract '" ++ contract_name ++ "': notice_date is set but end_date is missing.")
  | some nd, some ed =>
    if dateKey nd > dateKey ed then
      .error ("Contract '" ++ contract_name ++ "': notice_date (" ++ pyDateStr nd ++
        ") must be on/before end_date (" ++ pyDateStr ed ++ ").")
    else .ok ()
  | Option.none, _ => .ok ()

/-- The contract lookup: owner, vendor and case-insensitive name,
narrowed by `contract_id` when one is given. -/
def contractMatch (u vi : Nat) (contract_name contract_id : String) (c : Contract) : Bool :=
  c.owner = u && c.vendorIdx = vi && iexact c.contract_name contract_name &&
    (contract_id = "" || iexact c.contract_id contract_id)

/-- The update branch of `_import_contracts`: `setattr` for every
default that is neither `None` nor `""` (the vendor and the uploading
user are objects, hence always overwritten). -/
def applyContractUpdate (obj : Contract) (vi : Nat) (contract_name : String)
    (uploader : Nat) (dfl : ContractDefaults) : Contract :=
  let upd := fun (cur v : String) => if v ≠ "" then v else cur
  { obj with
    vendorIdx := vi
    contract_name := upd obj.contract_name contract_name
    contract_id := upd obj.contract_id dfl.contract_id
    contract_type := upd obj.contract_type dfl.contract_type
    entity := upd obj.entity dfl.entity
    currency := upd obj.currency dfl.currency
    status := upd obj.status dfl.status
    uploaded_by := uploader
    annual_value := match dfl.annual_value with | some q => some q | Option.none => obj.annual_value
    start_date := match dfl.start_date with | some d => some d | Option.none => obj.start_date
    end_date := match dfl.end_date with | some d => some d | Option.none => obj.end_date
    renewal_date := match dfl.renewal_date with | some d => some d | Option.none => obj.renewal_date
    notice_period_days := match dfl.notice_period_days with | some n => some n | Option.none => obj.notice_period_days
    notice_date := match dfl.notice_date with | some d => some d | Option.none => obj.notice_date }

/-- `Contract.objects.create(owner=request_user, **defaults)`. -/
def newContract (u vi : Nat) (contract_name : String) (dfl : ContractDefaults) : Contract :=
  { owner := u
    vendorIdx := vi
    contract_name := contract_name
    contract_id := dfl.contract_id
    contract_type := dfl.contract_type
    entity := dfl.entity
    currency := dfl.currency
    status := dfl.status
    uploaded_by := u
    annual_value := dfl.annual_value
    start_date := dfl.start_date
    end_date := dfl.end_date
    renewal_date := dfl.renewal_date
    notice_period_days := dfl.notice_period_days
    notice_date := dfl.notice_date }

/-- The row loop of `_import_contracts` for `request_user` `u`. -/
def importContractsLoop (u : Nat) (vendors : List Vendor) (cts : List Contract)
    (created updated : Nat) : List VRow → Except String (List Contract × Nat × Nat)
  | [] => .ok (cts, created, updated)
  | r :: rs =>
    let vendor_name := sv r "vendor_name"
    let contract_name := sv r "contract_name"
    if vendor_name = "" || contract_name = "" then
      importContractsLoop u vendors cts created updated rs
    else
      match vendors.findIdx? (fun v => iexact v.name vendor_name) with
      | Option.none =>
        .error ("Vendor not found for contract: " ++ vendor_name ++
          " (contract=" ++ contract_name ++ "). Import vendors first.")
      | some vi =>
        let contract_id := sv r "contract_id"
        let obj := cts.find? (contractMatch u vi contract_name contract_id)
        match contractRowDefaults r contract_id contract_name with
        | .error e => .error e
        | .ok dfl =>
          match noticeCheck dfl obj contract_name with
          | .error e => .error e
          | .ok _ =>
            match obj with
            | some _ =>
              importContractsLoop u vendors
                (updateFirst (contractMatch u vi contract_name contract_id)
                  (fun c => applyContractUpdate c vi contract_name u dfl) cts)
                created (updated + 1) rs
            | Option.none =>
              importContractsLoop u vendors (cts ++ [newContract u vi contract_name dfl])
                (created + 1) updated rs

/-- `_import_contracts(rows, request_user)`. -/
def _import_contracts (u : Nat) (vendors : List Vendor) (cts : List Contract)
    (rows : List VRow) : Except String (List Contract × Nat × Nat) :=
  match _require_columns rows ["vendor_name", "contract_name"] with
  | .error e => .error e
  | .ok _ => importContractsLoop u vendors cts 0 0 rows

/-! ## Invoices importer -/

/-- The `Invoice` fields touched by `_import_invoices`. -/
structure Invoice where
  owner : Nat
  vendorIdx : Nat
  contractIdx : Option Nat
  invoice_number : String
  invoice_date : Option PyDate
  currency : String
  total_amount : Rat
  tax_amount : Option Rat
  period_start : Option PyDate
  period_end : Option PyDate
  notes : String
deriving DecidableEq, Repr

/-- The `defaults` dict of `_import_invoices`.  `invoice_date` and
`contract` keys are always present (with a possibly-`None` value);
`tax_amount`, `period_start`, `period_end` are present iff `some`. -/
structure InvoiceDefaults where
  invoice_date : Option PyDate
  currency : String
  total_amount : Rat
  notes : String
  contract : Option Nat
  tax_amount : Option Rat
  period_start : Option PyDate
  period_end : Option PyDate
deriving DecidableEq, Repr

/-- The contract lookup of `_import_invoices`: owner + vendor +
case-insensitive name, falling back to owner + name. -/
def invoiceContractLookup (u : Nat) (cts : List Contract) (vi : Nat)
    (contract_name : String) : Option Nat :=
  if contract_name ≠ "" then
    match cts.findIdx? (fun c =>
        c.owner = u && c.vendorIdx = vi && iexact c.contract_name contract_name) with
    | some ci => some ci
    | Option.none => cts.findIdx? (fun c => c.owner = u && iexact c.contract_name contract_name)
  else Option.none

/-- Build the row's `defaults` dict, in source order.  A blank
`total_amount` parses to `None` and `or Decimal("0")` turns it (and a
parsed zero) into zero. -/
def invoiceRowDefaults (r : VRow) (currency : String) (contract : Option Nat) :
    Except String InvoiceDefaults := do
  let idt ← _parse_date (rget r "invoice_date")
  let ta ← _parse_decimal (rget r "total_amount")
  let tax ← optParseDec r "tax_amount"
  let ps ← optParseDate r "period_start"
  let pe ← optParseDate r "period_end"
  pure
    { invoice_date := idt
      currency := currency
      total_amount := match ta with | some q => q | Option.none => 0
      notes := sv r "notes"
      contract := contract
      tax_amount := tax
      period_start := ps
      period_end := pe }

/-- The update branch of `_import_invoices`: `setattr` for every
default that is neither `None` nor `""`, then
`obj.invoice_number = invoice_number`.  A `Decimal` is never `None` nor
`""`, so `total_amount` is always overwritten. -/
def applyInvoiceUpdate (obj : Invoice) (d : InvoiceDefaults) (invoice_number : String) :
    Invoice :=
  let upd := fun (cur v : String) => if v ≠ "" then v else cur
  { obj with
    invoice_number := invoice_number
    invoice_date := match d.invoice_date with | some x => some x | Option.none => obj.invoice_date
    currency := upd obj.currency d.currency
    total_amount := d.total_amount
    notes := upd obj.notes d.notes
    contractIdx := match d.contract with | some c => some c | Option.none => obj.contractIdx
    tax_amount := match d.tax_amount with | some q => some q | Option.none => obj.tax_amount
    period_start := match d.period_start with | some x => some x | Option.none => obj.period_start
    period_end := match d.period_end with | some x => some x | Option.none => obj.period_end }

/-- `Invoice.objects.create(...)`; the database rejects a `NULL`
`invoice_date` (`DateField` is non-nullable), surfacing as an
`IntegrityError` inside the atomic block. -/
def newInvoice (u vi : Nat) (invoice_number : String) (d : InvoiceDefaults) :
    Except String Invoice :=
  match d.invoice_date with
  | Option.none => .error "NOT NULL constraint failed: portal_invoice.invoice_date"
  | some dt =>
    .ok
      { owner := u
        vendorIdx := vi
        contractIdx := d.contract
        invoice_number := invoice_number
        invoice_date := some dt
        currency := d.currency
        total_amount := d.total_amount
        tax_amount := d.tax_amount
        period_start := d.period_start
        period_end := d.period_end
        notes := d.notes }

/-- The row loop of `_import_invoices` for `request_user` `u`. -/
def importInvoicesLoop (u : Nat) (vendors : List Vendor) (cts : List Contract)
    (invs : List Invoice) (created updated : Nat) :
    List VRow → Except String (List Invoice × Nat × Nat)
  | [] => .ok (invs, created, updated)
  | r :: rs =>
    let vendor_name := sv r "vendor_name"
    let invoice_number := sv r "invoice_number"
    if vendor_name = "" || invoice_number = "" then
      importInvoicesLoop u vendors cts invs created updated rs
    else
      match vendors.findIdx? (fun v => iexact v.name vendor_name) with
      | Option.none =>
        .error ("Vendor not found for invoice: " ++ vendor_name ++
          " (invoice=" ++ invoice_number ++ "). Import vendors first.")
      | some vi =>
        let contract := invoiceContractLookup u cts vi (sv r "contract_name")
        match invoiceRowDefaults r (sv r "currency") contract with
        | .error e => .error e
        | .ok d =>
          if invs.any (fun i =>
              i.owner = u && i.vendorIdx = vi && iexact i.invoice_number invoice_number) then
            importInvoicesLoop u vendors cts
              (updateFirst (fun i =>
                  i.owner = u && i.vendorIdx = vi && iexact i.invoice_number invoice_number)
                (fun i => applyInvoiceUpdate i d invoice_number) invs)
              created (updated + 1) rs
          else
            match newInvoice u vi invoice_number d with
            | .error e => .error e
            | .ok inv =>
              importInvoicesLoop u vendors cts (invs ++ [inv]) (created + 1) updated rs

/-- `_import_invoices(rows, request_user)`. -/
def _import_invoices (u : Nat) (vendors : List Vendor) (cts : List Contract)
    (invs : List Invoice) (rows : List VRow) : Except String (List Invoice × Nat × Nat) :=
  match _require_columns rows
      ["vendor_name", "invoice_number", "invoice_date", "currency", "total_amount"] with
  | .error e => .error e
  | .ok _ => importInvoicesLoop u vendors cts invs 0 0 rows

end Views

/-! ## Claim-support definitions -/

namespace DatahubValidation

/-- The errors contributed by the per-cell loop of one row: one item per
cell that maps to a field whose converter raises. -/
def cellErrorsList (spec : DatasetSpec) (idx : Nat) (cells : List (RawKey × PyVal)) :
    List ValidationErrorItem :=
  cells.filterMap (fun kv =>
    match mappedField spec kv.1 with
    | some f =>
      match convFor spec f kv.2 with
      | .error m => some ⟨idx, f, m⟩
      | .ok _ => Option.none
    | Option.none => Option.none)

/-- The cells of a raw row whose (normalized) key maps to field `f`. -/
def cellsFor (spec : DatasetSpec) (f : String) (raw : RawRow) : List (RawKey × PyVal) :=
  raw.filter (fun kv => mappedField spec kv.1 = some f)

/-- A `parse_decimal` field converter as it would appear in a
`DatasetSpec.converters` dict (the converted cell stores the optional
decimal). -/
def decConv : Converter := fun v =>
  (parse_decimal v).map (fun q =>
    match q with
    | some x => PyVal.dec x
    | Option.none => PyVal.none)

/-- The final step of `parse_decimal` on a string input: parse the
cleaned character list as a decimal literal or raise the descriptive
error naming the original string. -/
def decFinish (s : String) (cs : List Char) : Except String (Option Rat) :=
  match decimalOfChars cs with
  | some q => .ok (some q)
  | Option.none => .error ("Invalid decimal: " ++ pyRepr (.str s))

end DatahubValidation

/-! ## Support lemmas: characters -/

theorem ofNat_le_iff {m : Nat} (h : m < UInt32.size) (n : UInt32) :
    UInt32.ofNat m ≤ n ↔ m ≤ n.toNat := by
  rw [UInt32.le_def, BitVec.le_def]
  simp [UInt32.toNat, UInt32.ofNat, BitVec.toNat_ofNat, Nat.mod_eq_of_lt h]

theorem le_ofNat_iff {m : Nat} (h : m < UInt32.size) (n : UInt32) :
    n ≤ UInt32.ofNat m ↔ n.toNat ≤ m := by
  rw [UInt32.le_def, BitVec.le_def]
  simp [UInt32.toNat, UInt32.ofNat, BitVec.toNat_ofNat, Nat.mod_eq_of_lt h]

theorem isUpper_iff (c : Char) : c.isUpper = true ↔ 65 ≤ c.toNat ∧ c.toNat ≤ 90 := by
  rw [Char.isUpper, Bool.and_eq_true, decide_eq_true_iff, decide_eq_true_iff]
  rw [ge_iff_le, show (65 : UInt32) = UInt32.ofNat 65 from rfl,
    show (90 : UInt32) = UInt32.ofNat 90 from rfl]
  rw [ofNat_le_iff (by decide), le_ofNat_iff (by decide)]
  rfl

theorem toLower_not_upper (c : Char) : Char.isUpper (Char.toLower c) = false := by
  rw [Char.toLower]
  by_cases h : Char.toNat c ≥ 65 ∧ Char.toNat c ≤ 90
  · rw [if_pos h]
    obtain ⟨h1, h2⟩ := h
    generalize hn : Char.toNat c = n at h1 h2
    interval_cases n <;> decide
  · rw [if_neg h]
    by_contra hb
    rw [Bool.not_eq_false, isUpper_iff] at hb
    exact h hb

theorem toLower_eq_self {c : Char} (h : Char.isUpper c = false) : Char.toLower c = c := by
  rw [Char.toLower, if_neg]
  intro hc
  rw [← Bool.not_eq_true, isUpper_iff] at h
  exact h hc

theorem word_not_space {c : Char} (h : pyIsWord c = true) : pyIsSpace c = false := by
  by_contra hb
  rw [Bool.not_eq_false, pyIsSpace] at hb
  simp only [Bool.or_eq_true, decide_eq_true_iff] at hb
  rcases hb with ((((h1 | h1) | h1) | h1) | h1) | h1 <;> subst h1 <;> simp [pyIsWord] at h

theorem word_not_sep {c : Char} (h : pyIsWord c = true) :
    DatahubValidation.isSep c = false := by
  rw [DatahubValidation.isSep, word_not_space h, Bool.false_or]
  by_contra hb
  rw [Bool.not_eq_false, decide_eq_true_iff] at hb
  subst hb
  simp [pyIsWord] at h

theorem word_not_bom {c : Char} (h : pyIsWord c = true) : c ≠ '﻿' := by
  intro hb
  subst hb
  simp [pyIsWord, Char.isAlphanum, Char.isAlpha, Char.isUpper, Char.isLower,
    Char.isDigit] at h

/-! ## Support lemmas: lists of characters -/

theorem map_eq_self_of {l : List Char} {f : Char → Char} (h : ∀ a ∈ l, f a = a) :
    l.map f = l := by
  induction l with
  | nil => rfl
  | cons c cs ih =>
    rw [List.map_cons, h c (List.mem_cons_self c cs), ih (fun a ha => h a (List.mem_cons_of_mem c ha))]

theorem mem_dropWhile {p : Char → Bool} : ∀ {cs : List Char} {c : Char},
    c ∈ cs.dropWhile p → c ∈ cs := by
  intro cs
  induction cs with
  | nil => intro c h; simp [List.dropWhile] at h
  | cons a as ih =>
    intro c h
    rw [List.dropWhile_cons] at h
    by_cases hp : p a = true
    · rw [if_pos hp] at h
      exact List.mem_cons_of_mem a (ih h)
    · rw [if_neg hp] at h
      exact h

theorem head?_dropWhile {p : Char → Bool} : ∀ {cs : List Char} {c : Char},
    (cs.dropWhile p).head? = some c → p c = false := by
  intro cs
  induction cs with
  | nil => intro c h; simp [List.dropWhile] at h
  | cons a as ih =>
    intro c h
    rw [List.dropWhile_cons] at h
    by_cases hp : p a = true
    · rw [if_pos hp] at h
      exact ih h
    · rw [if_neg hp] at h
      rw [List.head?_cons, Option.some_inj] at h
      subst h
      exact Bool.eq_false_iff.mpr hp

theorem dropWhile_eq_self {p : Char → Bool} {cs : List Char}
    (h : ∀ c, cs.head? = some c → p c = false) : cs.dropWhile p = cs := by
  cases cs with
  | nil => rfl
  | cons a as =>
    rw [List.dropWhile_cons, if_neg]
    rw [h a rfl]
    simp

theorem dropWhile_decomposition (p : Char → Bool) :
    ∀ cs : List Char, ∃ t, cs = t ++ cs.dropWhile p := by
  intro cs
  induction cs with
  | nil => exact ⟨[], rfl⟩
  | cons a as ih =>
    rw [List.dropWhile_cons]
    by_cases hp : p a = true
    · rw [if_pos hp]
      obtain ⟨t, ht⟩ := ih
      exact ⟨a :: t, by rw [List.cons_append, ← ht]⟩
    · rw [if_neg hp]
      exact ⟨[], rfl⟩

theorem mem_stripBoth {p : Char → Bool} {cs : List Char} {c : Char}
    (h : c ∈ stripBoth p cs) : c ∈ cs := by
  rw [stripBoth, List.mem_reverse] at h
  have h2 := mem_dropWhile h
  rw [List.mem_reverse] at h2
  exact mem_dropWhile h2

theorem getLast?_stripBoth {p : Char → Bool} {cs : List Char} {c : Char}
    (h : (stripBoth p cs).getLast? = some c) : p c = false := by
  rw [stripBoth, ← List.head?_reverse, List.reverse_reverse] at h
  exact head?_dropWhile h

theorem head?_stripBoth {p : Char → Bool} {cs : List Char} {c : Char}
    (h : (stripBoth p cs).head? = some c) : p c = false := by
  rw [stripBoth] at h
  obtain ⟨t, ht⟩ := dropWhile_decomposition p (cs.dropWhile p).reverse
  have hsplit : cs.dropWhile p =
      ((cs.dropWhile p).reverse.dropWhile p).reverse ++ t.reverse := by
    have := congrArg List.reverse ht
    rw [List.reverse_reverse, List.reverse_append] at this
    exact this
  cases hrev : ((cs.dropWhile p).reverse.dropWhile p).reverse with
  | nil => rw [hrev] at h; simp at h
  | cons b bs =>
    rw [hrev, List.head?_cons, Option.some_inj] at h
    subst h
    refine @head?_dropWhile p cs b ?_
    rw [hsplit, hrev, List.cons_append, List.head?_cons]

theorem stripBoth_eq_self {p : Char → Bool} {cs : List Char}
    (hh : ∀ c, cs.head? = some c → p c = false)
    (hl : ∀ c, cs.getLast? = some c → p c = false) : stripBoth p cs = cs := by
  rw [stripBoth, dropWhile_eq_self hh, dropWhile_eq_self, List.reverse_reverse]
  intro c hc
  rw [List.head?_reverse] at hc
  exact hl c hc

namespace DatahubValidation

theorem mem_collapseSepsAux : ∀ (b : Bool) (cs : List Char) (c : Char),
    c ∈ collapseSepsAux b cs → c = '_' ∨ c ∈ cs := by
  intro b cs
  induction cs generalizing b with
  | nil => intro c h; simp [collapseSepsAux] at h
  | cons a as ih =>
    intro c h
    rw [collapseSepsAux] at h
    by_cases hs : isSep a = true
    · rw [if_pos hs] at h
      by_cases hb : b = true
      · subst hb
        rw [if_pos rfl] at h
        rcases ih true c h with h1 | h1
        · exact Or.inl h1
        · exact Or.inr (List.mem_cons_of_mem a h1)
      · rw [Bool.not_eq_true] at hb
        subst hb
        rw [if_neg (by simp)] at h
        rcases List.mem_cons.mp h with h1 | h1
        · exact Or.inl h1
        · rcases ih true c h1 with h2 | h2
          · exact Or.inl h2
          · exact Or.inr (List.mem_cons_of_mem a h2)
    · rw [if_neg hs] at h
      rcases List.mem_cons.mp h with h1 | h1
      · exact Or.inr (h1 ▸ List.mem_cons_self a as)
      · rcases ih false c h1 with h2 | h2
        · exact Or.inl h2
        · exact Or.inr (List.mem_cons_of_mem a h2)

theorem collapseSepsAux_eq_self {cs : List Char}
    (h : ∀ c ∈ cs, isSep c = false) : collapseSepsAux false cs = cs := by
  induction cs with
  | nil => rfl
  | cons a as ih =>
    rw [collapseSepsAux, if_neg (by rw [h a (List.mem_cons_self a as)]; simp),
      ih (fun c hc => h c (List.mem_cons_of_mem a hc))]

/-- Every character of a normalized header is a word character. -/
theorem normalizeString_mem_word {s : String} {c : Char}
    (h : c ∈ (normalizeString s).toList) : pyIsWord c = true := by
  rw [normalizeString] at h
  have h1 := mem_stripBoth h
  exact (List.mem_filter.mp h1).2

/-- No character of a normalized header is an upper-case letter. -/
theorem normalizeString_not_upper {s : String} {c : Char}
    (h : c ∈ (normalizeString s).toList) : c.isUpper = false := by
  rw [normalizeString] at h
  have h1 := (List.mem_filter.mp (mem_stripBoth h)).1
  rcases mem_collapseSepsAux _ _ _ h1 with h2 | h2
  · subst h2; decide
  · have h3 := (List.mem_filter.mp h2).1
    obtain ⟨a, _, ha⟩ := List.mem_map.mp h3
    rw [← ha]
    exact toLower_not_upper a

theorem normalizeString_head {s : String} {c : Char}
    (h : (normalizeString s).toList.head? = some c) : c ≠ '_' := by
  rw [normalizeString] at h
  have := head?_stripBoth h
  simpa using this

theorem normalizeString_last {s : String} {c : Char}
    (h : (normalizeString s).toList.getLast? = some c) : c ≠ '_' := by
  rw [normalizeString] at h
  have := getLast?_stripBoth h
  simpa using this

/-- `normalizeString` is the identity on any string made of word
characters, none upper-case, not starting or ending with `_`. -/
theorem normalizeString_eq_self {r : String}
    (hword : ∀ c ∈ r.toList, pyIsWord c = true)
    (hupper : ∀ c ∈ r.toList, c.isUpper = false)
    (hhead : ∀ c, r.toList.head? = some c → c ≠ '_')
    (hlast : ∀ c, r.toList.getLast? = some c → c ≠ '_') :
    normalizeString r = r := by
  rw [normalizeString]
  rw [stripBoth_eq_self
    (fun c hc => word_not_space (hword c (List.mem_of_mem_head? hc)))
    (fun c hc => word_not_space (hword c (List.mem_of_getLast?_eq_some hc)))]
  rw [map_eq_self_of (fun c hc => toLower_eq_self (hupper c hc))]
  rw [List.filter_eq_self.mpr
    (fun c hc => decide_eq_true (word_not_bom (hword c hc)))]
  rw [collapseSepsAux_eq_self (fun c hc => word_not_sep (hword c hc))]
  rw [List.filter_eq_self.mpr hword]
  rw [stripBoth_eq_self
    (fun c hc => decide_eq_false (hhead c hc))
    (fun c hc => decide_eq_false (hlast c hc))]
  rfl

/-- Normalization is a fixpoint on its own output. -/
theorem normalizeString_idem (s : String) :
    normalizeString (normalizeString s) = normalizeString s :=
  normalizeString_eq_self
    (fun _ hc => normalizeString_mem_word hc)
    (fun _ hc => normalizeString_not_upper hc)
    (fun _ hc => normalizeString_head hc)
    (fun _ hc => normalizeString_last hc)

end DatahubValidation

/-! ## Claim C7 -/

/-- C7: for every input header `h` (including `None` and the empty
string), `normalize_header(h)` is entirely lowercase (no upper-case
character), contains no whitespace character, has no leading or trailing
underscore, and is a fixpoint: normalizing the result again returns it
unchanged. -/
theorem c7_normalize_header_fixpoint (h : Option String) :
    (∀ c ∈ (DatahubValidation.normalize_header h).toList, c.isUpper = false) ∧
    (∀ c ∈ (DatahubValidation.normalize_header h).toList, pyIsSpace c = false) ∧
    (∀ c, (DatahubValidation.normalize_header h).toList.head? = some c → c ≠ '_') ∧
    (∀ c, (DatahubValidation.normalize_header h).toList.getLast? = some c → c ≠ '_') ∧
    DatahubValidation.normalize_header (some (DatahubValidation.normalize_header h)) =
      DatahubValidation.normalize_header h := by
  cases h with
  | none =>
    refine ⟨?_, ?_, ?_, ?_, ?_⟩ <;> decide
  | some s =>
    refine ⟨fun c hc => DatahubValidation.normalizeString_not_upper hc,
      fun c hc => word_not_space (DatahubValidation.normalizeString_mem_word hc),
      fun c hc => DatahubValidation.normalizeString_head hc,
      fun c hc => DatahubValidation.normalizeString_last hc,
      DatahubValidation.normalizeString_idem s⟩

/-- Concrete instance of C7 at the header `" Cost -- Center Code "`. -/
theorem c7_normalize_header_fixpoint_witness :
    'c' ∈ (DatahubValidation.normalize_header (some " Cost -- Center Code ")).toList ∧
    Char.isUpper 'c' = false ∧
    DatahubValidation.normalize_header
        (some (DatahubValidation.normalize_header (some " Cost -- Center Code "))) =
      DatahubValidation.normalize_header (some " Cost -- Center Code ") :=
  ⟨by decide,
   (c7_normalize_header_fixpoint (some " Cost -- Center Code ")).1 'c' (by decide),
   (c7_normalize_header_fixpoint (some " Cost -- Center Code ")).2.2.2.2⟩

/-! ## Support lemmas: validation engine -/

theorem find?_map_setKey {row : CleanRow} {k f : String} {v : PyVal} (h : k ≠ f) :
    (row.map (fun p => if p.1 = k then (k, v) else p)).find? (fun p => p.1 = f) =
      row.find? (fun p => p.1 = f) := by
  induction row with
  | nil => rfl
  | cons a as ih =>
    rw [List.map_cons, List.find?_cons, List.find?_cons]
    by_cases hk : a.1 = k
    · rw [if_pos hk]
      have h1 : (decide ((k, v).1 = f)) = false := by simp [h]
      have h2 : (decide (a.1 = f)) = false := by simp [hk, h]
      rw [h1, h2, ih]
    · rw [if_neg hk]
      by_cases hf : a.1 = f
      · rw [show (decide (a.1 = f)) = true by simp [hf]]
      · rw [show (decide (a.1 = f)) = false by simp [hf], ih]

theorem find?_append_single {row : CleanRow} {k f : String} {v : PyVal} (h : k ≠ f) :
    (row ++ [(k, v)]).find? (fun p => p.1 = f) = row.find? (fun p => p.1 = f) := by
  induction row with
  | nil => simp [List.find?, h]
  | cons a as ih =>
    rw [List.cons_append, List.find?_cons, List.find?_cons]
    by_cases hf : a.1 = f
    · rw [show (decide (a.1 = f)) = true by simp [hf]]
    · rw [show (decide (a.1 = f)) = false by simp [hf], ih]

theorem find?_setVal_ne {row : CleanRow} {k f : String} {v : PyVal} (h : k ≠ f) :
    (setVal row k v).find? (fun p => p.1 = f) = row.find? (fun p => p.1 = f) := by
  rw [setVal]
  by_cases ha : row.any (fun p => p.1 = k) = true
  · rw [if_pos ha, find?_map_setKey h]
  · rw [if_neg ha, find?_append_single h]

namespace DatahubValidation

/-- The error component of the per-cell fold is the incoming error list
followed by one item per failing mapped cell. -/
theorem foldCells_errors (spec : DatasetSpec) (idx : Nat) :
    ∀ (cells : List (RawKey × PyVal)) (clean : CleanRow) (errs : List ValidationErrorItem),
      (cells.foldl (fun acc kv => processCell spec idx acc kv.1 kv.2) (clean, errs)).2 =
        errs ++ cellErrorsList spec idx cells := by
  intro cells
  induction cells with
  | nil => intro clean errs; simp [cellErrorsList]
  | cons kv rest ih =>
    intro clean errs
    simp only [List.foldl_cons, cellErrorsList, List.filterMap_cons]
    cases hm : mappedField spec kv.1 with
    | none =>
      have hstep : processCell spec idx (clean, errs) kv.1 kv.2 = (clean, errs) := by
        simp only [processCell, hm]
      rw [hstep, ih, cellErrorsList]
    | some f =>
      cases hc : convFor spec f kv.2 with
      | ok v =>
        have hstep : processCell spec idx (clean, errs) kv.1 kv.2 = (setVal clean f v, errs) := by
          simp only [processCell, hm, hc]
        rw [hstep, ih, cellErrorsList]
        simp only [hm, hc]
      | error m =>
        have hstep : processCell spec idx (clean, errs) kv.1 kv.2 =
            (clean, errs ++ [⟨idx, f, m⟩]) := by
          simp only [processCell, hm, hc]
        rw [hstep, ih, cellErrorsList]
        simp only [hm, hc]
        simp [List.append_assoc]

/-- If every cell of the row that maps to `f` has a failing converter,
the `f` entry of the produced clean row is whatever it was before. -/
theorem foldCells_clean_of_fail (spec : DatasetSpec) (idx : Nat) (f : String) :
    ∀ (cells : List (RawKey × PyVal)) (clean : CleanRow) (errs : List ValidationErrorItem),
      (∀ kv ∈ cells, mappedField spec kv.1 = some f →
        ∀ w, convFor spec f kv.2 ≠ .ok w) →
      ((cells.foldl (fun acc kv => processCell spec idx acc kv.1 kv.2) (clean, errs)).1.find?
          (fun p => p.1 = f)) =
        clean.find? (fun p => p.1 = f) := by
  intro cells
  induction cells with
  | nil => intro clean errs _; rfl
  | cons kv rest ih =>
    intro clean errs hfail
    simp only [List.foldl_cons]
    cases hm : mappedField spec kv.1 with
    | none =>
      have hstep : processCell spec idx (clean, errs) kv.1 kv.2 = (clean, errs) := by
        simp only [processCell, hm]
      rw [hstep]
      exact ih clean errs (fun kv2 h2 => hfail kv2 (List.mem_cons_of_mem kv h2))
    | some g =>
      cases hc : convFor spec g kv.2 with
      | ok v =>
        have hg : g ≠ f := by
          intro he
          subst he
          exact hfail kv (List.mem_cons_self kv rest) hm v hc
        have hstep : processCell spec idx (clean, errs) kv.1 kv.2 = (setVal clean g v, errs) := by
          simp only [processCell, hm, hc]
        rw [hstep, ih (setVal clean g v) errs
          (fun kv2 h2 => hfail kv2 (List.mem_cons_of_mem kv h2))]
        exact find?_setVal_ne hg
      | error m =>
        have hstep : processCell spec idx (clean, errs) kv.1 kv.2 =
            (clean, errs ++ [⟨idx, g, m⟩]) := by
          simp only [processCell, hm, hc]
        rw [hstep]
        exact ih clean (errs ++ [⟨idx, g, m⟩])
          (fun kv2 h2 => hfail kv2 (List.mem_cons_of_mem kv h2))

/-- Decomposition of a row's error list. -/
theorem processRow_errors (spec : DatasetSpec) (idx : Nat) (raw : RawRow) :
    (processRow spec idx raw).2 =
      cellErrorsList spec idx raw ++ requiredErrors spec idx (processRow spec idx raw).1 := by
  rw [processRow, foldCells_errors]
  rfl

/-- Every error produced for a row carries that row's index. -/
theorem processRow_row_eq (spec : DatasetSpec) (idx : Nat) (raw : RawRow)
    {x : ValidationErrorItem} (h : x ∈ (processRow spec idx raw).2) : x.row = idx := by
  rw [processRow_errors] at h
  rcases List.mem_append.mp h with h1 | h1
  · obtain ⟨kv, _, hkv⟩ := List.mem_filterMap.mp h1
    cases hm : mappedField spec kv.1 with
    | none => simp [hm] at hkv
    | some f =>
      simp only [hm] at hkv
      cases hc : convFor spec f kv.2 with
      | ok v => simp [hc] at hkv
      | error m =>
        simp only [hc, Option.some_inj] at hkv
        rw [← hkv]
  · obtain ⟨g, _, hg⟩ := List.mem_filterMap.mp h1
    by_cases hb : isBlankVal (getVal (processRow spec idx raw).1 g) = true
    · rw [if_pos hb, Option.some_inj] at hg
      rw [← hg]
    · rw [if_neg hb] at hg
      simp at hg

/-- Indexed access into the clean rows produced by the row loop. -/
theorem validateLoop_getElem (spec : DatasetSpec) :
    ∀ (rows : List RawRow) (k i : Nat),
      (validateLoop spec k rows).1[i]? =
        rows[i]?.map (fun r => (processRow spec (k + i) r).1) := by
  intro rows
  induction rows with
  | nil => intro k i; simp [validateLoop]
  | cons r rs ih =>
    intro k i
    cases i with
    | zero => simp [validateLoop]
    | succ j =>
      rw [validateLoop]
      simp only [List.getElem?_cons_succ]
      rw [ih (k + 1) j]
      have : k + (j + 1) = k + 1 + j := by omega
      rw [this]

theorem validateLoop_length (spec : DatasetSpec) :
    ∀ (rows : List RawRow) (k : Nat),
      (validateLoop spec k rows).1.length = rows.length := by
  intro rows
  induction rows with
  | nil => intro k; rfl
  | cons r rs ih => intro k; rw [validateLoop]; simp [ih (k + 1)]

/-- Membership in the loop's error list from membership in one row's
error list. -/
theorem validateLoop_mem_errors (spec : DatasetSpec) :
    ∀ (rows : List RawRow) (k i : Nat) (r : RawRow) (x : ValidationErrorItem),
      rows[i]? = some r → x ∈ (processRow spec (k + i) r).2 →
      x ∈ (validateLoop spec k rows).2 := by
  intro rows
  induction rows with
  | nil => intro k i r x h; simp at h
  | cons r0 rs ih =>
    intro k i r x hr hx
    rw [validateLoop]
    cases i with
    | zero =>
      rw [List.getElem?_cons_zero, Option.some_inj] at hr
      subst hr
      exact List.mem_append.mpr (Or.inl hx)
    | succ j =>
      rw [List.getElem?_cons_succ] at hr
      refine List.mem_append.mpr (Or.inr ?_)
      refine ih (k + 1) j r x hr ?_
      have : k + 1 + j = k + (j + 1) := by omega
      rw [this]
      exact hx

/-- Every loop error comes from some row of the batch. -/
theorem validateLoop_mem_shape (spec : DatasetSpec) :
    ∀ (rows : List RawRow) (k : Nat) (x : ValidationErrorItem),
      x ∈ (validateLoop spec k rows).2 →
      ∃ j r2, rows[j]? = some r2 ∧ x ∈ (processRow spec (k + j) r2).2 := by
  intro rows
  induction rows with
  | nil => intro k x h; simp [validateLoop] at h
  | cons r1 rs1 ih =>
    intro k x h
    rw [validateLoop] at h
    rcases List.mem_append.mp h with h1 | h1
    · exact ⟨0, r1, by simp, by simpa using h1⟩
    · obtain ⟨j, r2, hj, hj2⟩ := ih (k + 1) x h1
      refine ⟨j + 1, r2, by simpa using hj, ?_⟩
      have heq : k + (j + 1) = k + 1 + j := by omega
      rw [heq]
      exact hj2

/-- Counting an error item of row index `k + i` across the whole loop
output reduces to counting it in row `i`'s output. -/
theorem validateLoop_count (spec : DatasetSpec) :
    ∀ (rows : List RawRow) (k i : Nat) (r : RawRow) (e : ValidationErrorItem),
      rows[i]? = some r → e.row = k + i →
      (validateLoop spec k rows).2.count e = (processRow spec (k + i) r).2.count e := by
  intro rows
  induction rows with
  | nil => intro k i r e h; simp at h
  | cons r0 rs ih =>
    intro k i r e hr he
    rw [validateLoop]
    simp only [List.count_append]
    cases i with
    | zero =>
      rw [List.getElem?_cons_zero, Option.some_inj] at hr
      subst hr
      have hz : (validateLoop spec (k + 1) rs).2.count e = 0 := by
        rw [List.count_eq_zero]
        intro hmem
        obtain ⟨j, r2, _, hj2⟩ := validateLoop_mem_shape spec rs (k + 1) e hmem
        have := processRow_row_eq spec (k + 1 + j) r2 hj2
        omega
      rw [hz, Nat.add_zero, Nat.add_zero]
    | succ j =>
      rw [List.getElem?_cons_succ] at hr
      have hz : (processRow spec k r0).2.count e = 0 := by
        rw [List.count_eq_zero]
        intro hmem
        have := processRow_row_eq spec k r0 hmem
        omega
      rw [hz, Nat.zero_add]
      have hkj : k + (j + 1) = k + 1 + j := by omega
      rw [hkj] at he ⊢
      exact ih (k + 1) j r e hr he

end DatahubValidation

/-! ## More validation-engine support lemmas -/

namespace DatahubValidation

theorem mem_reqFilterMap_col {idx : Nat} {msg : String} {clean : CleanRow} :
    ∀ {req : List String} {x : ValidationErrorItem},
      x ∈ req.filterMap (fun g =>
        if isBlankVal (getVal clean g) then
          some (⟨idx, g, msg⟩ : ValidationErrorItem)
        else Option.none) →
      x.column ∈ req := by
  intro req x h
  obtain ⟨g, hg, hx⟩ := List.mem_filterMap.mp h
  by_cases hb : isBlankVal (getVal clean g) = true
  · rw [if_pos hb, Option.some_inj] at hx
    rw [← hx]
    exact hg
  · rw [if_neg hb] at hx
    simp at hx

theorem count_reqFilterMap (idx : Nat) (msg : String) (clean : CleanRow) (f : String) :
    ∀ (req : List String), req.Nodup → f ∈ req →
      ((req.filterMap (fun g =>
          if isBlankVal (getVal clean g) then
            some (⟨idx, g, msg⟩ : ValidationErrorItem)
          else Option.none)).count ⟨idx, f, msg⟩) =
        if isBlankVal (getVal clean f) then 1 else 0 := by
  intro req
  induction req with
  | nil => intro _ hf; simp at hf
  | cons a as ih =>
    intro hnd hf
    rw [List.filterMap_cons]
    rcases List.mem_cons.mp hf with hfa | hfa
    · subst hfa
      have hnotin : f ∉ as := (List.nodup_cons.mp hnd).1
      have hrest : ((as.filterMap (fun g =>
          if isBlankVal (getVal clean g) then
            some (⟨idx, g, msg⟩ : ValidationErrorItem)
          else Option.none)).count ⟨idx, f, msg⟩) = 0 := by
        rw [List.count_eq_zero]
        intro hmem
        exact hnotin (mem_reqFilterMap_col hmem)
      by_cases hb : isBlankVal (getVal clean f) = true
      · rw [if_pos hb, if_pos hb]
        simp [List.count_cons, hrest]
      · rw [if_neg hb, if_neg hb, hrest]
    · have hane : (⟨idx, f, msg⟩ : ValidationErrorItem) ≠ ⟨idx, a, msg⟩ := by
        intro he
        have : f = a := congrArg ValidationErrorItem.column he
        subst this
        exact (List.nodup_cons.mp hnd).1 hfa
      have ih2 := ih (List.nodup_cons.mp hnd).2 hfa
      by_cases hb : isBlankVal (getVal clean a) = true
      · have haf : a ≠ f := by
          intro he
          subst he
          exact (List.nodup_cons.mp hnd).1 hfa
        rw [if_pos hb, List.count_cons, ih2]
        simp [hane, haf]
      · rw [if_neg hb, ih2]

/-- No converter of `COST_CENTERS_SPEC` ever raises. -/
theorem CC_conv_no_error (g : String) (v : PyVal) (m : String) :
    convFor COST_CENTERS_SPEC g v ≠ .error m := by
  intro h
  rw [convFor] at h
  cases hf : COST_CENTERS_SPEC.converters.find? (fun p => p.1 = g) with
  | none =>
    simp only [hf] at h
    exact Except.noConfusion h
  | some p =>
    simp only [hf] at h
    have hp := List.mem_of_find?_eq_some hf
    simp only [COST_CENTERS_SPEC, List.mem_cons, List.not_mem_nil, or_false] at hp
    rcases hp with hp | hp | hp | hp | hp <;> (rw [hp] at h; simp [strConv] at h)

end DatahubValidation

/-! ## Claims C2, C3, C4 -/

/-- C2: `validate_rows` returns exactly one clean row per input row, in
input order: `clean_rows` has the same length as `raw_rows`, and its
`i`-th entry is the one produced from the `i`-th raw row (processed with
1-based index `i + 1`), however many rows produced errors. -/
theorem c2_validate_rows_preserves_rows (raw_rows : List RawRow)
    (headers_in_file : List (Option String)) (spec : DatahubValidation.DatasetSpec) :
    (DatahubValidation.validate_rows raw_rows headers_in_file spec).clean_rows.length =
      raw_rows.length ∧
    ∀ i : Nat,
      (DatahubValidation.validate_rows raw_rows headers_in_file spec).clean_rows[i]? =
        raw_rows[i]?.map (fun r => (DatahubValidation.processRow spec (1 + i) r).1) := by
  constructor
  · rw [DatahubValidation.validate_rows]
    exact DatahubValidation.validateLoop_length spec raw_rows 1
  · intro i
    rw [DatahubValidation.validate_rows]
    exact DatahubValidation.validateLoop_getElem spec raw_rows 1 i

/-- C3: when the unique cell of row `i` mapping to field `f` has a
converter that raises with message `m`, the result contains the error
item `(i + 1, f, m)`, row `i`'s clean row exists but has no entry for
`f`, and every other row is still processed (one clean row per input
row). -/
theorem c3_converter_failure_recorded (spec : DatahubValidation.DatasetSpec)
    (raw_rows : List RawRow) (headers_in_file : List (Option String))
    (i : Nat) (r : RawRow) (rk : RawKey) (rv : PyVal) (f m : String)
    (hr : raw_rows[i]? = some r)
    (hcells : DatahubValidation.cellsFor spec f r = [(rk, rv)])
    (hconv : DatahubValidation.convFor spec f rv = .error m) :
    (⟨i + 1, f, m⟩ : DatahubValidation.ValidationErrorItem) ∈
      (DatahubValidation.validate_rows raw_rows headers_in_file spec).errors ∧
    ((DatahubValidation.validate_rows raw_rows headers_in_file spec).clean_rows[i]?.map
        (fun cr => cr.find? (fun p => p.1 = f))) = some Option.none ∧
    (DatahubValidation.validate_rows raw_rows headers_in_file spec).clean_rows.length =
      raw_rows.length := by
  have hmemr : (rk, rv) ∈ r := by
    have : (rk, rv) ∈ DatahubValidation.cellsFor spec f r := by
      rw [hcells]
      exact List.mem_singleton.mpr rfl
    exact (List.mem_filter.mp this).1
  have hmapped : DatahubValidation.mappedField spec rk = some f := by
    have : (rk, rv) ∈ DatahubValidation.cellsFor spec f r := by
      rw [hcells]
      exact List.mem_singleton.mpr rfl
    have h2 := (List.mem_filter.mp this).2
    exact of_decide_eq_true h2
  have hfail : ∀ kv ∈ r, DatahubValidation.mappedField spec kv.1 = some f →
      ∀ w, DatahubValidation.convFor spec f kv.2 ≠ .ok w := by
    intro kv hkv hkvm w hw
    have : kv ∈ DatahubValidation.cellsFor spec f r :=
      List.mem_filter.mpr ⟨hkv, decide_eq_true hkvm⟩
    rw [hcells, List.mem_singleton] at this
    subst this
    rw [hconv] at hw
    exact Except.noConfusion hw
  have hadd : 1 + i = i + 1 := by omega
  refine ⟨?_, ?_, ?_⟩
  · rw [DatahubValidation.validate_rows]
    refine DatahubValidation.validateLoop_mem_errors spec raw_rows 1 i r _ hr ?_
    rw [DatahubValidation.processRow_errors]
    refine List.mem_append.mpr (Or.inl ?_)
    refine List.mem_filterMap.mpr ⟨(rk, rv), hmemr, ?_⟩
    simp only [hmapped, hconv, hadd]
  · rw [DatahubValidation.validate_rows]
    rw [DatahubValidation.validateLoop_getElem spec raw_rows 1 i, hr]
    rw [Option.map_some', Option.map_some', Option.some_inj]
    rw [DatahubValidation.processRow]
    exact DatahubValidation.foldCells_clean_of_fail spec (1 + i) f r [] [] hfail
  · rw [DatahubValidation.validate_rows]
    exact DatahubValidation.validateLoop_length spec raw_rows 1

/-- Concrete instance of C3: a one-row batch whose `amount` cell fails
decimal conversion yields the converter's error at row 1 and a clean row
without the field. -/
theorem c3_converter_failure_recorded_witness :
    (⟨1, "amount", "Invalid decimal: 'abc'"⟩ : DatahubValidation.ValidationErrorItem) ∈
      (DatahubValidation.validate_rows [[(some "amount", PyVal.str "abc")]] []
        { key := "t", label := "T", header_map := [("amount", "amount")],
          converters := [("amount", DatahubValidation.decConv)], required := [],
          allow_unknown_columns := true }).errors ∧
    ((DatahubValidation.validate_rows [[(some "amount", PyVal.str "abc")]] []
        { key := "t", label := "T", header_map := [("amount", "amount")],
          converters := [("amount", DatahubValidation.decConv)], required := [],
          allow_unknown_columns := true }).clean_rows[0]?.map
      (fun cr => cr.find? (fun p => p.1 = "amount"))) = some Option.none := by
  have h := c3_converter_failure_recorded
    { key := "t", label := "T", header_map := [("amount", "amount")],
      converters := [("amount", DatahubValidation.decConv)], required := [],
      allow_unknown_columns := true }
    [[(some "amount", PyVal.str "abc")]] [] 0 [(some "amount", PyVal.str "abc")]
    (some "amount") (PyVal.str "abc") "amount" "Invalid decimal: 'abc'"
    rfl (by decide) rfl
  exact ⟨h.1, h.2.1⟩

/-- C4: for a row `i` whose produced clean row is `cr` and a field `f`
of the spec's `required` tuple (assumed duplicate-free, with converters
that never raise the required-field message), exactly one error item
`(i + 1, f, "Required value is missing.")` is emitted iff `cr`'s value
for `f` is missing, `None`, or a whitespace-only string, and none is
emitted otherwise. -/
theorem c4_required_value_missing_count (spec : DatahubValidation.DatasetSpec)
    (raw_rows : List RawRow) (headers_in_file : List (Option String))
    (i : Nat) (r : RawRow) (f : String) (cr : CleanRow)
    (hr : raw_rows[i]? = some r)
    (hcr : (DatahubValidation.validate_rows raw_rows headers_in_file spec).clean_rows[i]? =
      some cr)
    (hf : f ∈ spec.required)
    (hnd : spec.required.Nodup)
    (hmsg : ∀ g v m, DatahubValidation.convFor spec g v = .error m →
      m ≠ "Required value is missing.") :
    (DatahubValidation.validate_rows raw_rows headers_in_file spec).errors.count
        ⟨i + 1, f, "Required value is missing."⟩ =
      if DatahubValidation.isBlankVal (getVal cr f) then 1 else 0 := by
  have hadd : 1 + i = i + 1 := by omega
  have hcr2 : cr = (DatahubValidation.processRow spec (1 + i) r).1 := by
    rw [DatahubValidation.validate_rows] at hcr
    rw [DatahubValidation.validateLoop_getElem spec raw_rows 1 i, hr,
      Option.map_some', Option.some_inj] at hcr
    exact hcr.symm
  rw [DatahubValidation.validate_rows]
  rw [show ((⟨i + 1, f, "Required value is missing."⟩ :
      DatahubValidation.ValidationErrorItem)) =
    ⟨1 + i, f, "Required value is missing."⟩ by rw [hadd]]
  rw [DatahubValidation.validateLoop_count spec raw_rows 1 i r _ hr rfl]
  rw [DatahubValidation.processRow_errors, List.count_append]
  have hcell0 : (DatahubValidation.cellErrorsList spec (1 + i) r).count
      ⟨1 + i, f, "Required value is missing."⟩ = 0 := by
    rw [List.count_eq_zero]
    intro hmem
    obtain ⟨kv, _, hkv⟩ := List.mem_filterMap.mp hmem
    cases hm : DatahubValidation.mappedField spec kv.1 with
    | none => simp [hm] at hkv
    | some g =>
      simp only [hm] at hkv
      cases hc : DatahubValidation.convFor spec g kv.2 with
      | ok w => simp [hc] at hkv
      | error m2 =>
        simp only [hc, Option.some_inj] at hkv
        have : m2 = "Required value is missing." :=
          congrArg DatahubValidation.ValidationErrorItem.message hkv
        exact hmsg g kv.2 m2 hc this
  rw [hcell0, Nat.zero_add]
  rw [DatahubValidation.requiredErrors.eq_1]
  rw [← hcr2]
  exact DatahubValidation.count_reqFilterMap (1 + i) "Required value is missing." cr f
    spec.required hnd hf

/-- Concrete instance of C4: the spec.md scenario — three cost-center
rows where row 2 has a blank `code` gives exactly one required-value
error at `(2, "code")` and none at `(1, "code")`. -/
theorem c4_required_value_missing_count_witness :
    ((DatahubValidation.validate_rows
        [[(some "code", PyVal.str "C1"), (some "name", PyVal.str "Alpha")],
         [(some "code", PyVal.str ""), (some "name", PyVal.str "Beta")],
         [(some "code", PyVal.str "C3"), (some "name", PyVal.str "Gamma")]]
        [some "code", some "name"] DatahubValidation.COST_CENTERS_SPEC).errors.count
      ⟨2, "code", "Required value is missing."⟩ = 1) ∧
    ((DatahubValidation.validate_rows
        [[(some "code", PyVal.str "C1"), (some "name", PyVal.str "Alpha")],
         [(some "code", PyVal.str ""), (some "name", PyVal.str "Beta")],
         [(some "code", PyVal.str "C3"), (some "name", PyVal.str "Gamma")]]
        [some "code", some "name"] DatahubValidation.COST_CENTERS_SPEC).errors.count
      ⟨1, "code", "Required value is missing."⟩ = 0) := by
  constructor
  · have h := c4_required_value_missing_count DatahubValidation.COST_CENTERS_SPEC
      [[(some "code", PyVal.str "C1"), (some "name", PyVal.str "Alpha")],
       [(some "code", PyVal.str ""), (some "name", PyVal.str "Beta")],
       [(some "code", PyVal.str "C3"), (some "name", PyVal.str "Gamma")]]
      [some "code", some "name"] 1
      [(some "code", PyVal.str ""), (some "name", PyVal.str "Beta")]
      "code" [("code", PyVal.str ""), ("name", PyVal.str "Beta")]
      rfl (by decide) (by decide) (by decide)
      (fun g v m hc _ => DatahubValidation.CC_conv_no_error g v m hc)
    rw [h]
    decide
  · have h := c4_required_value_missing_count DatahubValidation.COST_CENTERS_SPEC
      [[(some "code", PyVal.str "C1"), (some "name", PyVal.str "Alpha")],
       [(some "code", PyVal.str ""), (some "name", PyVal.str "Beta")],
       [(some "code", PyVal.str "C3"), (some "name", PyVal.str "Gamma")]]
      [some "code", some "name"] 0
      [(some "code", PyVal.str "C1"), (some "name", PyVal.str "Alpha")]
      "code" [("code", PyVal.str "C1"), ("name", PyVal.str "Alpha")]
      rfl (by decide) (by decide) (by decide)
      (fun g v m hc _ => DatahubValidation.CC_conv_no_error g v m hc)
    rw [h]
    decide

/-! ## Support lemmas: parsers -/

theorem findSome?_eq_of_first {α β : Type} (g : α → Option β) :
    ∀ (l : List α) (j : Nat) (x : α) (d : β),
      l[j]? = some x →
      (∀ (k : Nat) (y : α), k < j → l[k]? = some y → g y = Option.none) →
      g x = some d →
      l.findSome? g = some d := by
  intro l
  induction l with
  | nil => intro j x d hj; simp at hj
  | cons a as ih =>
    intro j x d hj hbefore hx
    cases j with
    | zero =>
      rw [List.getElem?_cons_zero, Option.some_inj] at hj
      subst hj
      rw [List.findSome?_cons, hx]
    | succ j2 =>
      rw [List.getElem?_cons_succ] at hj
      rw [List.findSome?_cons]
      have ha : g a = Option.none :=
        hbefore 0 a (Nat.succ_pos j2) List.getElem?_cons_zero
      rw [ha]
      exact ih j2 x d hj
        (fun k y hk hky =>
          hbefore (k + 1) y (Nat.succ_lt_succ hk) (by simpa using hky)) hx

/-! ## Claim C5 -/

/-- C5: `parse_decimal` maps `None`, `""`, `"-"` and the em-dash to
`None`; after stripping and removing internal spaces, a string holding
both `','` and `'.'` is parsed with every comma removed, and a string
holding `','` but no `'.'` is parsed with the comma turned into a
decimal point; so `"1,234.56"` and `"1 234,56"` both parse to the exact
decimal 1234.56; a string that is no valid decimal after cleaning, such
as `"abc"`, raises a descriptive error. -/
theorem c5_parse_decimal_behaviour :
    DatahubValidation.parse_decimal PyVal.none = .ok Option.none ∧
    DatahubValidation.parse_decimal (.str "") = .ok Option.none ∧
    DatahubValidation.parse_decimal (.str "-") = .ok Option.none ∧
    DatahubValidation.parse_decimal (.str "—") = .ok Option.none ∧
    (∀ s : String,
      pyStrip s ≠ "" → pyStrip s ≠ "—" → pyStrip s ≠ "-" →
      ((pyStrip s).toList.filter (fun c => c ≠ ' ')).contains ',' = true →
      ((pyStrip s).toList.filter (fun c => c ≠ ' ')).contains '.' = true →
      DatahubValidation.parse_decimal (.str s) =
        DatahubValidation.decFinish s
          (((pyStrip s).toList.filter (fun c => c ≠ ' ')).filter (fun c => c ≠ ','))) ∧
    (∀ s : String,
      pyStrip s ≠ "" → pyStrip s ≠ "—" → pyStrip s ≠ "-" →
      ((pyStrip s).toList.filter (fun c => c ≠ ' ')).contains '.' = false →
      DatahubValidation.parse_decimal (.str s) =
        DatahubValidation.decFinish s
          (((pyStrip s).toList.filter (fun c => c ≠ ' ')).map
            (fun c => if c = ',' then '.' else c))) ∧
    DatahubValidation.parse_decimal (.str "1,234.56") = .ok (some (mkRat 123456 100)) ∧
    DatahubValidation.parse_decimal (.str "1 234,56") = .ok (some (mkRat 123456 100)) ∧
    DatahubValidation.parse_decimal (.str "abc") = .error "Invalid decimal: 'abc'" := by
  refine ⟨rfl, rfl, rfl, rfl, ?_, ?_, rfl, rfl, rfl⟩
  · intro s h1 h2 h3 hc hd
    simp only [DatahubValidation.parse_decimal, pyStr]
    rw [if_neg (by simp [h1, h2, h3])]
    rw [if_pos (by rw [hc, hd]; rfl)]
    rfl
  · intro s h1 h2 h3 hd
    simp only [DatahubValidation.parse_decimal, pyStr]
    rw [if_neg (by simp [h1, h2, h3])]
    rw [if_neg (by rw [hd, Bool.and_false]; simp)]
    rfl

/-- Concrete instance of C5's conditional clauses at `"1,234.56"` and
`"12,5"`. -/
theorem c5_parse_decimal_behaviour_witness :
    DatahubValidation.parse_decimal (.str "1,234.56") =
      DatahubValidation.decFinish "1,234.56"
        ((("1,234.56" : String).toList.filter (fun c => c ≠ ' ')).filter
          (fun c => c ≠ ',')) ∧
    DatahubValidation.parse_decimal (.str "12,5") =
      DatahubValidation.decFinish "12,5"
        ((("12,5" : String).toList.filter (fun c => c ≠ ' ')).map
          (fun c => if c = ',' then '.' else c)) := by
  constructor
  · have h := c5_parse_decimal_behaviour.2.2.2.2.1 "1,234.56"
      (by decide) (by decide) (by decide) (by decide) (by decide)
    rw [h]
    rfl
  · have h := c5_parse_decimal_behaviour.2.2.2.2.2.1 "12,5"
      (by decide) (by decide) (by decide) (by decide)
    rw [h]
    rfl

/-! ## Claim C6 -/

/-- C6: `parse_date` passes a native date through, narrows a datetime to
its date, maps the blank markers to `None`, tries the six allowed
formats in their list order — the first succeeding format wins — then
falls back to an ISO-8601 date-time parse, and raises a descriptive
error when nothing matches; concretely `"20.12.2025"` is 20 Dec 2025,
the ambiguous `"01/02/2025"` is 1 Feb 2025 (`%d/%m/%Y` is tried before
`%m/%d/%Y`), and `"31/31/2025"` raises.  `%Y` requires exactly four
digits, so `"999-1-1"` and `"25-12-20"` raise, while `%d` accepts a
space-padded day, so `"2025-12- 5"` is 5 Dec 2025. -/
theorem c6_parse_date_behaviour :
    (∀ d : PyDate, DatahubValidation.parse_date (.date d) = .ok (some d)) ∧
    (∀ d : PyDate, DatahubValidation.parse_date (.datetime d) = .ok (some d)) ∧
    DatahubValidation.parse_date PyVal.none = .ok Option.none ∧
    DatahubValidation.parse_date (.str "") = .ok Option.none ∧
    DatahubValidation.parse_date (.str "-") = .ok Option.none ∧
    DatahubValidation.parse_date (.str "—") = .ok Option.none ∧
    (∀ (s : String) (j : Nat) (fmt : FOrder × Char) (d : PyDate),
      pyStrip s ≠ "" → pyStrip s ≠ "—" → pyStrip s ≠ "-" →
      DatahubValidation._ALLOWED_DATE_FORMATS[j]? = some fmt →
      (∀ (k : Nat) (fmt2 : FOrder × Char), k < j →
        DatahubValidation._ALLOWED_DATE_FORMATS[k]? = some fmt2 →
        strptimeDate fmt2.1 fmt2.2 (pyStrip s) = Option.none) →
      strptimeDate fmt.1 fmt.2 (pyStrip s) = some d →
      DatahubValidation.parse_date (.str s) = .ok (some d)) ∧
    (∀ s : String,
      pyStrip s ≠ "" → pyStrip s ≠ "—" → pyStrip s ≠ "-" →
      (∀ fmt ∈ DatahubValidation._ALLOWED_DATE_FORMATS,
        strptimeDate fmt.1 fmt.2 (pyStrip s) = Option.none) →
      DatahubValidation.parse_date (.str s) =
        (match fromisoformatModel (pyStrip s) with
         | some d => .ok (some d)
         | Option.none => .error ("Invalid date: " ++ pyRepr (.str s)))) ∧
    DatahubValidation.parse_date (.str "20.12.2025") = .ok (some ⟨2025, 12, 20⟩) ∧
    DatahubValidation.parse_date (.str "2025-12-20") = .ok (some ⟨2025, 12, 20⟩) ∧
    DatahubValidation.parse_date (.str "01/02/2025") = .ok (some ⟨2025, 2, 1⟩) ∧
    DatahubValidation.parse_date (.str "01-02-2025") = .ok (some ⟨2025, 2, 1⟩) ∧
    DatahubValidation.parse_date (.str "2025-12-20T10:30:00") = .ok (some ⟨2025, 12, 20⟩) ∧
    DatahubValidation.parse_date (.str "31/31/2025") = .error "Invalid date: '31/31/2025'" ∧
    DatahubValidation.parse_date (.str "999-1-1") = .error "Invalid date: '999-1-1'" ∧
    DatahubValidation.parse_date (.str "25-12-20") = .error "Invalid date: '25-12-20'" ∧
    DatahubValidation.parse_date (.str "2025-12- 5") = .ok (some ⟨2025, 12, 5⟩) := by
  refine ⟨fun d => rfl, fun d => rfl, rfl, rfl, rfl, rfl, ?_, ?_,
    rfl, rfl, rfl, rfl, rfl, rfl, rfl, rfl, rfl⟩
  · intro s j fmt d h1 h2 h3 hj hbefore hfmt
    simp only [DatahubValidation.parse_date, pyStr]
    rw [if_neg (by simp [h1, h2, h3])]
    rw [findSome?_eq_of_first (fun f => strptimeDate f.1 f.2 (pyStrip s))
      DatahubValidation._ALLOWED_DATE_FORMATS j fmt d hj hbefore hfmt]
  · intro s h1 h2 h3 hall
    simp only [DatahubValidation.parse_date, pyStr]
    rw [if_neg (by simp [h1, h2, h3])]
    rw [List.findSome?_eq_none_iff.mpr
      (fun f hf => hall f hf)]

/-- Concrete instance of C6's order clause: `"01/02/2025"` matches the
third format (`%d/%m/%Y`) after the first two fail, giving 1 Feb
2025; and of the fallback clause at `"2025-02-30T01:00:00"` (no format
matches, ISO parse rejects the invalid day). -/
theorem c6_parse_date_behaviour_witness :
    DatahubValidation.parse_date (.str "01/02/2025") = .ok (some ⟨2025, 2, 1⟩) ∧
    DatahubValidation.parse_date (.str "2025-02-30T01:00:00") =
      .error "Invalid date: '2025-02-30T01:00:00'" := by
  constructor
  · exact c6_parse_date_behaviour.2.2.2.2.2.2.1 "01/02/2025" 2 (.dmy, '/')
      ⟨2025, 2, 1⟩ (by decide) (by decide) (by decide) (by decide)
      (by intro k fmt2 hk hfk
          interval_cases k <;>
            (simp only [DatahubValidation._ALLOWED_DATE_FORMATS] at hfk;
             simp at hfk; rw [← hfk]; decide))
      (by decide)
  · have h := c6_parse_date_behaviour.2.2.2.2.2.2.2.1 "2025-02-30T01:00:00"
      (by decide) (by decide) (by decide)
      (by intro fmt hf
          simp only [DatahubValidation._ALLOWED_DATE_FORMATS, List.mem_cons,
            List.not_mem_nil, or_false] at hf
          rcases hf with hf | hf | hf | hf | hf | hf <;> (rw [hf]; decide))
    rw [h]
    rfl

/-! ## Claim C10 -/

/-- C10: `_require_columns` inspects only the first data row — it
raises "Missing required columns" iff the row list is non-empty and
some required column is absent from the first row's keys; an empty row
list always passes, after which the cost-center importer returns zero
counts without raising; and when every required column is in the first
row the check passes no matter what later rows contain. -/
theorem c10_require_columns_first_row_only :
    (∀ required : List String, Views._require_columns [] required = .ok ()) ∧
    (∀ (r0 : Views.VRow) (rest : List Views.VRow) (required : List String),
      (∃ e, Views._require_columns (r0 :: rest) required = .error e) ↔
        ∃ c ∈ required, c ∉ Views.rowKeys r0) ∧
    (∀ (r0 : Views.VRow) (rest : List Views.VRow) (required : List String),
      (∀ c ∈ required, c ∈ Views.rowKeys r0) →
      Views._require_columns (r0 :: rest) required = .ok ()) ∧
    (∀ st : List Views.CostCenter, Views._import_cost_centers st [] = .ok (st, 0, 0)) ∧
    (∀ st : List Views.Vendor, Views._import_vendors st [] = .ok (st, 0, 0)) := by
  have hiff : ∀ (r0 : Views.VRow) (required : List String),
      (required.filter (fun c => !(Views.rowKeys r0).contains c) = []) ↔
        ∀ c ∈ required, c ∈ Views.rowKeys r0 := by
    intro r0 required
    rw [List.filter_eq_nil_iff]
    constructor
    · intro h c hc
      have h2 := h c hc
      simpa using h2
    · intro h c hc
      simpa using h c hc
  refine ⟨fun required => rfl, ?_, ?_, fun st => rfl, fun st => rfl⟩
  · intro r0 rest required
    constructor
    · rintro ⟨e, he⟩
      rw [Views._require_columns] at he
      by_cases hm : required.filter (fun c => !(Views.rowKeys r0).contains c) = []
      · rw [if_neg (by rw [hm]; simp)] at he
        exact Except.noConfusion he
      · obtain ⟨c, hc⟩ := List.exists_mem_of_ne_nil _ hm
        have hcr := List.mem_filter.mp hc
        refine ⟨c, hcr.1, ?_⟩
        intro hmem
        have h3 := hcr.2
        simp [hmem] at h3
    · rintro ⟨c, hc, hnc⟩
      have hm : required.filter (fun c => !(Views.rowKeys r0).contains c) ≠ [] := by
        intro h0
        exact hnc ((hiff r0 required).mp h0 c hc)
      rw [Views._require_columns]
      rw [if_pos hm]
      exact ⟨_, rfl⟩
  · intro r0 rest required h
    have hm0 : required.filter (fun c => !(Views.rowKeys r0).contains c) = [] :=
      (hiff r0 required).mpr h
    rw [Views._require_columns, if_neg (by rw [hm0]; simp)]

/-- Concrete instance of C10: a batch whose second row lacks the
`name` column still passes the vendors precheck, and a batch whose
first row lacks it fails. -/
theorem c10_require_columns_first_row_only_witness :
    Views._require_columns
      [[("name", PyVal.str "A"), ("notes", PyVal.str "x")], [("notes", PyVal.str "y")]]
      ["name"] = .ok () ∧
    (∃ e, Views._require_columns
      [[("notes", PyVal.str "y")], [("name", PyVal.str "A")]] ["name"] = .error e) := by
  constructor
  · exact (c10_require_columns_first_row_only.2.2.1)
      [("name", PyVal.str "A"), ("notes", PyVal.str "x")] [[("notes", PyVal.str "y")]]
      ["name"] (by decide)
  · exact (c10_require_columns_first_row_only.2.1
      [("notes", PyVal.str "y")] [[("name", PyVal.str "A")]] ["name"]).mpr
      ⟨"name", by decide, by decide⟩

/-! ## Support lemmas: importer loops -/

namespace Views

/-- Created/updated counters of the vendor loop: one increment per row
with a non-blank name. -/
theorem importVendorsLoop_counts :
    ∀ (rows : List VRow) (st : List Vendor) (c u : Nat),
      (importVendorsLoop st c u rows).2.1 + (importVendorsLoop st c u rows).2.2 =
        c + u + rows.countP (fun r => sv r "name" ≠ "") := by
  intro rows
  induction rows with
  | nil => intro st c u; simp [importVendorsLoop]
  | cons r rs ih =>
    intro st c u
    rw [importVendorsLoop]
    by_cases hn : sv r "name" = ""
    · rw [if_pos hn, List.countP_cons, ih]
      simp [hn]
    · rw [if_neg hn]
      by_cases hex : st.any (fun v => iexact v.name (sv r "name")) = true
      · rw [if_pos hex, List.countP_cons, ih]
        simp [hn]
        omega
      · rw [if_neg hex, List.countP_cons, ih]
        simp [hn]
        omega

/-- A vendor row with a blank name is skipped outright. -/
theorem importVendorsLoop_skip {r : VRow} (h : sv r "name" = "")
    (st : List Vendor) (c u : Nat) (rs : List VRow) :
    importVendorsLoop st c u (r :: rs) = importVendorsLoop st c u rs := by
  rw [importVendorsLoop, if_pos h]

/-- Created/updated counters of the cost-center loop. -/
theorem importCostCentersLoop_counts :
    ∀ (rows : List VRow) (st : List CostCenter) (c u : Nat),
      (importCostCentersLoop st c u rows).2.1 + (importCostCentersLoop st c u rows).2.2 =
        c + u + rows.countP (fun r => sv r "code" ≠ "" && sv r "name" ≠ "") := by
  intro rows
  induction rows with
  | nil => intro st c u; simp [importCostCentersLoop]
  | cons r rs ih =>
    intro st c u
    rw [importCostCentersLoop]
    by_cases hn : sv r "code" = "" ∨ sv r "name" = ""
    · rw [if_pos (by rcases hn with hn | hn <;> simp [hn]), List.countP_cons, ih]
      rcases hn with hn | hn <;> simp [hn]
    · rw [not_or] at hn
      rw [if_neg (by simp [hn.1, hn.2])]
      by_cases hex : st.any (fun cc => cc.code = sv r "code") = true
      · rw [if_pos hex, List.countP_cons, ih]
        simp [hn.1, hn.2]
        omega
      · rw [if_neg hex, List.countP_cons, ih]
        simp [hn.1, hn.2]
        omega

/-- A cost-center row with a blank code or name is skipped outright. -/
theorem importCostCentersLoop_skip {r : VRow}
    (h : sv r "code" = "" ∨ sv r "name" = "")
    (st : List CostCenter) (c u : Nat) (rs : List VRow) :
    importCostCentersLoop st c u (r :: rs) = importCostCentersLoop st c u rs := by
  rw [importCostCentersLoop, if_pos (by rcases h with h | h <;> simp [h])]

/-- Created/updated counters of the invoice loop, on a successful
return. -/
theorem importInvoicesLoop_counts (uu : Nat) (vendors : List Vendor) (cts : List Contract) :
    ∀ (rows : List VRow) (invs : List Invoice) (c0 u0 : Nat)
      (invs2 : List Invoice) (c u : Nat),
      importInvoicesLoop uu vendors cts invs c0 u0 rows = .ok (invs2, c, u) →
      c + u = c0 + u0 +
        rows.countP (fun r => sv r "vendor_name" ≠ "" && sv r "invoice_number" ≠ "") := by
  intro rows
  induction rows with
  | nil =>
    intro invs c0 u0 invs2 c u h
    rw [importInvoicesLoop] at h
    rw [Except.ok.injEq, Prod.mk.injEq, Prod.mk.injEq] at h
    obtain ⟨-, h2, h3⟩ := h
    simp [h2, h3]
  | cons r rs ih =>
    intro invs c0 u0 invs2 c u h
    rw [importInvoicesLoop] at h
    by_cases hn : sv r "vendor_name" = "" ∨ sv r "invoice_number" = ""
    · rw [if_pos (by rcases hn with hn | hn <;> simp [hn])] at h
      rw [List.countP_cons]
      have := ih invs c0 u0 invs2 c u h
      rcases hn with hn | hn <;> simp [hn, this]
    · rw [not_or] at hn
      rw [if_neg (by simp [hn.1, hn.2])] at h
      rw [List.countP_cons]
      have hp : (decide (sv r "vendor_name" ≠ "") && decide (sv r "invoice_number" ≠ "")) =
          true := by
        simp [hn.1, hn.2]
      cases hv : vendors.findIdx? (fun v => iexact v.name (sv r "vendor_name")) with
      | none =>
        simp only [hv] at h
        exact Except.noConfusion h
      | some vi =>
        simp only [hv] at h
        cases hd : invoiceRowDefaults r (sv r "currency")
            (invoiceContractLookup uu cts vi (sv r "contract_name")) with
        | error e =>
          simp only [hd] at h
          exact Except.noConfusion h
        | ok d =>
          simp only [hd] at h
          by_cases hex : invs.any (fun i =>
              i.owner = uu && i.vendorIdx = vi &&
                iexact i.invoice_number (sv r "invoice_number")) = true
          · rw [if_pos hex] at h
            have hthis := ih _ c0 (u0 + 1) invs2 c u h
            simp only [hp, if_true]
            omega
          · rw [if_neg hex] at h
            cases hni : newInvoice uu vi (sv r "invoice_number") d with
            | error e =>
              simp only [hni] at h
              exact Except.noConfusion h
            | ok inv =>
              simp only [hni] at h
              have hthis := ih _ (c0 + 1) u0 invs2 c u h
              simp only [hp, if_true]
              omega

/-- An invoice row with a blank vendor name or invoice number is skipped
outright. -/
theorem importInvoicesLoop_skip (uu : Nat) (vendors : List Vendor) (cts : List Contract)
    {r : VRow} (h : sv r "vendor_name" = "" ∨ sv r "invoice_number" = "")
    (invs : List Invoice) (c u : Nat) (rs : List VRow) :
    importInvoicesLoop uu vendors cts invs c u (r :: rs) =
      importInvoicesLoop uu vendors cts invs c u rs := by
  rw [importInvoicesLoop, if_pos (by rcases h with h | h <;> simp [h])]

end Views

/-! ## Claim C9 -/

/-- C9: the vendor, cost-center and invoice importers silently skip any
row whose natural-key cells stringify-and-trim to empty — such a row is
neither created nor updated and contributes no error (skipping it leaves
the loop state untouched) — and whenever the importer returns, the
counts satisfy `created + updated` = number of rows whose key fields are
all non-empty. -/
theorem c9_blank_key_rows_skipped :
    (∀ (st : List Views.Vendor) (rows : List Views.VRow)
      (st2 : List Views.Vendor) (c u : Nat),
      Views._import_vendors st rows = .ok (st2, c, u) →
      c + u = rows.countP (fun r => Views.sv r "name" ≠ "")) ∧
    (∀ (st : List Views.CostCenter) (rows : List Views.VRow)
      (st2 : List Views.CostCenter) (c u : Nat),
      Views._import_cost_centers st rows = .ok (st2, c, u) →
      c + u = rows.countP (fun r =>
        Views.sv r "code" ≠ "" && Views.sv r "name" ≠ "")) ∧
    (∀ (uu : Nat) (vendors : List Views.Vendor) (cts : List Views.Contract)
      (invs : List Views.Invoice) (rows : List Views.VRow)
      (invs2 : List Views.Invoice) (c u : Nat),
      Views._import_invoices uu vendors cts invs rows = .ok (invs2, c, u) →
      c + u = rows.countP (fun r =>
        Views.sv r "vendor_name" ≠ "" && Views.sv r "invoice_number" ≠ "")) ∧
    (∀ (st : List Views.Vendor) (c u : Nat) (r : Views.VRow) (rs : List Views.VRow),
      Views.sv r "name" = "" →
      Views.importVendorsLoop st c u (r :: rs) = Views.importVendorsLoop st c u rs) ∧
    (∀ (st : List Views.CostCenter) (c u : Nat) (r : Views.VRow) (rs : List Views.VRow),
      Views.sv r "code" = "" ∨ Views.sv r "name" = "" →
      Views.importCostCentersLoop st c u (r :: rs) =
        Views.importCostCentersLoop st c u rs) ∧
    (∀ (uu : Nat) (vendors : List Views.Vendor) (cts : List Views.Contract)
      (invs : List Views.Invoice) (c u : Nat) (r : Views.VRow) (rs : List Views.VRow),
      Views.sv r "vendor_name" = "" ∨ Views.sv r "invoice_number" = "" →
      Views.importInvoicesLoop uu vendors cts invs c u (r :: rs) =
        Views.importInvoicesLoop uu vendors cts invs c u rs) := by
  refine ⟨?_, ?_, ?_, ?_, ?_, ?_⟩
  · intro st rows st2 c u h
    rw [Views._import_vendors] at h
    cases hrc : Views._require_columns rows ["name"] with
    | error e =>
      rw [hrc] at h
      exact Except.noConfusion h
    | ok w =>
      rw [hrc, Except.ok.injEq] at h
      have hc := Views.importVendorsLoop_counts rows st 0 0
      rw [h] at hc
      simpa using hc
  · intro st rows st2 c u h
    rw [Views._import_cost_centers] at h
    cases hrc : Views._require_columns rows ["code", "name"] with
    | error e =>
      rw [hrc] at h
      exact Except.noConfusion h
    | ok w =>
      rw [hrc, Except.ok.injEq] at h
      have hc := Views.importCostCentersLoop_counts rows st 0 0
      rw [h] at hc
      simpa using hc
  · intro uu vendors cts invs rows invs2 c u h
    rw [Views._import_invoices] at h
    cases hrc : Views._require_columns rows
        ["vendor_name", "invoice_number", "invoice_date", "currency", "total_amount"] with
    | error e =>
      rw [hrc] at h
      exact Except.noConfusion h
    | ok w =>
      rw [hrc] at h
      have hc := Views.importInvoicesLoop_counts uu vendors cts rows invs 0 0 invs2 c u h
      simpa using hc
  · intro st c u r rs h
    exact Views.importVendorsLoop_skip h st c u rs
  · intro st c u r rs h
    exact Views.importCostCentersLoop_skip h st c u rs
  · intro uu vendors cts invs c u r rs h
    exact Views.importInvoicesLoop_skip uu vendors cts h invs c u rs

/-- Concrete instance of C9: a two-row vendor batch whose second row has
a blank name yields counts summing to 1, and an invoice batch with a
blank invoice number yields zero counts. -/
theorem c9_blank_key_rows_skipped_witness :
    1 + 0 = ([[("name", PyVal.str "Acme")], [("name", PyVal.str "  ")]].countP
      (fun r => Views.sv r "name" ≠ "")) ∧
    0 + 0 = ([[("vendor_name", PyVal.str "Acme"), ("invoice_number", PyVal.str ""),
        ("invoice_date", PyVal.str ""), ("currency", PyVal.str ""),
        ("total_amount", PyVal.str "")]].countP
      (fun r => Views.sv r "vendor_name" ≠ "" && Views.sv r "invoice_number" ≠ "")) := by
  constructor
  · exact c9_blank_key_rows_skipped.1 []
      [[("name", PyVal.str "Acme")], [("name", PyVal.str "  ")]]
      [{ name := "Acme", vendor_type := "", tags := "", primary_contact_name := "",
         primary_contact_email := "", website := "", notes := "" }] 1 0 rfl
  · exact c9_blank_key_rows_skipped.2.2.1 7
      [{ name := "Acme", vendor_type := "", tags := "", primary_contact_name := "",
         primary_contact_email := "", website := "", notes := "" }] [] []
      [[("vendor_name", PyVal.str "Acme"), ("invoice_number", PyVal.str ""),
        ("invoice_date", PyVal.str ""), ("currency", PyVal.str ""),
        ("total_amount", PyVal.str "")]] [] 0 0 rfl

/-! ## Claim C8 -/

namespace Views

/-- If some row of the batch has a non-blank vendor name and service
name but no matching vendor, the services row loop fails. -/
theorem importServicesLoop_err :
    ∀ (rows : List VRow) (vendors : List Vendor) (svcs : List Service) (c u : Nat),
      (∃ r ∈ rows, sv r "vendor_name" ≠ "" ∧ sv r "name" ≠ "" ∧
        ∀ v ∈ vendors, iexact v.name (sv r "vendor_name") = false) →
      ∃ e, importServicesLoop vendors svcs c u rows = .error e := by
  intro rows
  induction rows with
  | nil =>
    rintro vendors svcs c u ⟨r2, hr2, -⟩
    exact absurd hr2 (List.not_mem_nil r2)
  | cons r rs ih =>
    rintro vendors svcs c u ⟨r2, hr2, hbad⟩
    rcases List.mem_cons.mp hr2 with heq | hmem
    · subst heq
      obtain ⟨hv, hn, hnone⟩ := hbad
      rw [importServicesLoop, if_neg (by simp [hv, hn])]
      have hfi : vendors.findIdx? (fun v => iexact v.name (sv r2 "vendor_name")) =
          Option.none :=
        List.findIdx?_eq_none_iff.mpr (fun v hv2 => by simp [hnone v hv2])
      simp only [hfi]
      exact ⟨_, rfl⟩
    · rw [importServicesLoop]
      by_cases hskip : sv r "vendor_name" = "" ∨ sv r "name" = ""
      · rw [if_pos (by rcases hskip with h | h <;> simp [h])]
        exact ih vendors svcs c u ⟨r2, hmem, hbad⟩
      · rw [not_or] at hskip
        rw [if_neg (by simp [hskip.1, hskip.2])]
        cases hfi : vendors.findIdx? (fun v => iexact v.name (sv r "vendor_name")) with
        | none =>
          simp only [hfi]
          exact ⟨_, rfl⟩
        | some vi =>
          simp only [hfi]
          cases hlp : serviceListPrice r with
          | error e =>
            simp only [hlp]
            exact ⟨e, rfl⟩
          | ok lp =>
            simp only [hlp]
            by_cases hex : svcs.any (fun s => s.vendorIdx = vi && iexact s.name (sv r "name")) =
                true
            · rw [if_pos hex]
              exact ih vendors _ c (u + 1) ⟨r2, hmem, hbad⟩
            · rw [if_neg hex]
              exact ih vendors _ (c + 1) u ⟨r2, hmem, hbad⟩

end Views

/-- C8 counterexample: a row whose non-empty `vendor_name` matches no
existing vendor but whose `name` cell is blank is silently skipped — the
services importer returns `{created: 0, updated: 0}` instead of
raising. -/
theorem c8_unknown_vendor_counterexample :
    Views.sv [("vendor_name", PyVal.str "Ghost"), ("name", PyVal.str "")] "vendor_name" =
      "Ghost" ∧
    (∀ v ∈ ([] : List Views.Vendor), Views.iexact v.name "Ghost" = false) ∧
    Views._import_services [] []
      [[("vendor_name", PyVal.str "Ghost"), ("name", PyVal.str "")]] = .ok ([], 0, 0) :=
  ⟨rfl, fun v hv => absurd hv (List.not_mem_nil v), rfl⟩

/-- C8 (amended): if some row passed to the services importer has a
non-empty `vendor_name` **and a non-empty service `name`** and the
vendor matches no existing vendor (case-insensitively), the importer
raises, and the transaction leaves the service table exactly as it was —
no service is created or updated and no partial writes persist. -/
theorem c8_amended_unknown_vendor_aborts (vendors : List Views.Vendor)
    (svcs : List Views.Service) (rows : List Views.VRow)
    (h : ∃ r ∈ rows, Views.sv r "vendor_name" ≠ "" ∧ Views.sv r "name" ≠ "" ∧
      ∀ v ∈ vendors, Views.iexact v.name (Views.sv r "vendor_name") = false) :
    (∃ e, Views._import_services vendors svcs rows = .error e) ∧
    (Views.importServicesAtomic vendors svcs rows).1 = svcs ∧
    (∃ e, (Views.importServicesAtomic vendors svcs rows).2 = .error e) := by
  obtain ⟨e0, he0⟩ : ∃ e, Views._import_services vendors svcs rows = .error e := by
    rw [Views._import_services]
    cases hrc : Views._require_columns rows ["vendor_name", "name"] with
    | error e => exact ⟨e, rfl⟩
    | ok w => exact Views.importServicesLoop_err rows vendors svcs 0 0 h
  refine ⟨⟨e0, he0⟩, ?_, ⟨e0, ?_⟩⟩
  · rw [Views.importServicesAtomic, he0]
  · rw [Views.importServicesAtomic, he0]

/-- Concrete instance of C8 (amended): importing one well-formed service
row for the unknown vendor `"Ghost"` into an empty database raises and
leaves the service table empty. -/
theorem c8_amended_unknown_vendor_aborts_witness :
    (Views.importServicesAtomic [] []
      [[("vendor_name", PyVal.str "Ghost"), ("name", PyVal.str "S1")]]).1 = [] ∧
    ∃ e, (Views.importServicesAtomic [] []
      [[("vendor_name", PyVal.str "Ghost"), ("name", PyVal.str "S1")]]).2 = .error e := by
  have h := c8_amended_unknown_vendor_aborts [] []
    [[("vendor_name", PyVal.str "Ghost"), ("name", PyVal.str "S1")]]
    ⟨[("vendor_name", PyVal.str "Ghost"), ("name", PyVal.str "S1")],
     List.mem_singleton.mpr rfl, by decide, by decide,
     fun v hv => absurd hv (List.not_mem_nil v)⟩
  exact ⟨h.2.1, h.2.2⟩

/-! ## Support lemmas: single-row updates (for C1) -/

namespace Views

theorem require_columns_of_keys {r : VRow} {required : List String}
    (h : ∀ c ∈ required, c ∈ rowKeys r) (rest : List VRow) :
    _require_columns (r :: rest) required = .ok () := by
  rw [_require_columns, if_neg]
  intro hne
  apply hne
  rw [List.filter_eq_nil_iff]
  intro c hc
  simp [h c hc]

theorem importVendors_single_update (v : Vendor) (r : VRow)
    (hn : sv r "name" ≠ "")
    (hm : iexact v.name (sv r "name") = true)
    (hk : "name" ∈ rowKeys r) :
    _import_vendors [v] [r] = .ok ([applyVendorUpdate v r (sv r "name")], 0, 1) := by
  rw [_import_vendors, require_columns_of_keys (by simpa using hk) []]
  rw [importVendorsLoop, if_neg hn, if_pos (by simp [hm])]
  rw [importVendorsLoop]
  simp [updateFirst, hm]

theorem importCostCenters_single_update (cc : CostCenter) (r : VRow)
    (hc : sv r "code" ≠ "") (hn : sv r "name" ≠ "")
    (hm : cc.code = sv r "code")
    (hk1 : "code" ∈ rowKeys r) (hk2 : "name" ∈ rowKeys r) :
    _import_cost_centers [cc] [r] =
      .ok ([⟨cc.code, sv r "name", sv r "business_unit", sv r "region"⟩], 0, 1) := by
  rw [_import_cost_centers,
    require_columns_of_keys (by intro c hcm; simp at hcm; rcases hcm with h | h <;> simp [h, hk1, hk2]) []]
  rw [importCostCentersLoop, if_neg (by simp [hc, hn])]
  rw [if_pos (by simp [hm])]
  rw [importCostCentersLoop]
  simp [updateFirst, hm]

theorem importServices_single_update (v : Vendor) (s0 : Service) (r : VRow) (lp : Option Rat)
    (hv : sv r "vendor_name" ≠ "") (hn : sv r "name" ≠ "")
    (hmv : iexact v.name (sv r "vendor_name") = true)
    (hms : s0.vendorIdx = 0) (hmn : iexact s0.name (sv r "name") = true)
    (hlp : serviceListPrice r = .ok lp)
    (hk1 : "vendor_name" ∈ rowKeys r) (hk2 : "name" ∈ rowKeys r) :
    _import_services [v] [s0] [r] = .ok ([applyServiceUpdate s0 r (sv r "name") lp], 0, 1) := by
  rw [_import_services,
    require_columns_of_keys (by intro c hcm; simp at hcm; rcases hcm with h | h <;> simp [h, hk1, hk2]) []]
  rw [importServicesLoop, if_neg (by simp [hv, hn])]
  have hfi : ([v].findIdx? (fun v2 => iexact v2.name (sv r "vendor_name"))) = some 0 := by
    rw [List.findIdx?_cons, if_pos hmv]
  simp only [hfi, hlp]
  rw [if_pos (by simp [hms, hmn])]
  rw [importServicesLoop]
  simp [updateFirst, hms, hmn]

theorem importContracts_single_update (uu : Nat) (v : Vendor) (ct : Contract) (r : VRow)
    (dfl : ContractDefaults)
    (hv : sv r "vendor_name" ≠ "") (hn : sv r "contract_name" ≠ "")
    (hmv : iexact v.name (sv r "vendor_name") = true)
    (hmc : contractMatch uu 0 (sv r "contract_name") (sv r "contract_id") ct = true)
    (hd : contractRowDefaults r (sv r "contract_id") (sv r "contract_name") = .ok dfl)
    (hnc : noticeCheck dfl (some ct) (sv r "contract_name") = .ok ())
    (hk1 : "vendor_name" ∈ rowKeys r) (hk2 : "contract_name" ∈ rowKeys r) :
    _import_contracts uu [v] [ct] [r] =
      .ok ([applyContractUpdate ct 0 (sv r "contract_name") uu dfl], 0, 1) := by
  rw [_import_contracts,
    require_columns_of_keys (by intro c hcm; simp at hcm; rcases hcm with h | h <;> simp [h, hk1, hk2]) []]
  rw [importContractsLoop, if_neg (by simp [hv, hn])]
  have hfi : ([v].findIdx? (fun v2 => iexact v2.name (sv r "vendor_name"))) = some 0 := by
    rw [List.findIdx?_cons, if_pos hmv]
  have hobj : ([ct].find? (contractMatch uu 0 (sv r "contract_name") (sv r "contract_id"))) =
      some ct :=
    List.find?_cons_of_pos [] hmc
  simp only [hfi, hobj, hd, hnc]
  rw [importContractsLoop]
  simp [updateFirst, hmc]

theorem importInvoices_single_update (uu : Nat) (v : Vendor) (cts : List Contract)
    (inv : Invoice) (r : VRow) (d : InvoiceDefaults)
    (hv : sv r "vendor_name" ≠ "") (hn : sv r "invoice_number" ≠ "")
    (hmv : iexact v.name (sv r "vendor_name") = true)
    (ho : inv.owner = uu) (hvi : inv.vendorIdx = 0)
    (hmn : iexact inv.invoice_number (sv r "invoice_number") = true)
    (hd : invoiceRowDefaults r (sv r "currency")
      (invoiceContractLookup uu cts 0 (sv r "contract_name")) = .ok d)
    (hk1 : "vendor_name" ∈ rowKeys r) (hk2 : "invoice_number" ∈ rowKeys r)
    (hk3 : "invoice_date" ∈ rowKeys r) (hk4 : "currency" ∈ rowKeys r)
    (hk5 : "total_amount" ∈ rowKeys r) :
    _import_invoices uu [v] cts [inv] [r] =
      .ok ([applyInvoiceUpdate inv d (sv r "invoice_number")], 0, 1) := by
  rw [_import_invoices,
    require_columns_of_keys
      (by intro c hcm; simp at hcm
          rcases hcm with h | h | h | h | h <;> simp [h, hk1, hk2, hk3, hk4, hk5]) []]
  rw [importInvoicesLoop, if_neg (by simp [hv, hn])]
  have hfi : ([v].findIdx? (fun v2 => iexact v2.name (sv r "vendor_name"))) = some 0 := by
    rw [List.findIdx?_cons, if_pos hmv]
  simp only [hfi, hd]
  rw [if_pos (by simp [ho, hvi, hmn])]
  rw [importInvoicesLoop]
  simp [updateFirst, ho, hvi, hmn]

end Views

/-! ## Claim C1 -/

/-- C1 counterexample: updating cost center `C1` with a row whose
`business_unit` and `region` cells are blank erases the stored values
`"BU"` and `"EMEA"` — `update_or_create` overwrites every default field,
so a blank cell does erase existing data in the cost-center importer. -/
theorem c1_sparse_overwrite_counterexample :
    Views.sv [("code", PyVal.str "C1"), ("name", PyVal.str "New"),
      ("business_unit", PyVal.str ""), ("region", PyVal.str "")] "region" = "" ∧
    Views._import_cost_centers
      [⟨"C1", "Old", "BU", "EMEA"⟩]
      [[("code", PyVal.str "C1"), ("name", PyVal.str "New"),
        ("business_unit", PyVal.str ""), ("region", PyVal.str "")]] =
      .ok ([⟨"C1", "New", "", ""⟩], 0, 1) :=
  ⟨rfl, rfl⟩

/-- C1 (amended): when an incoming row matches an existing record by its
natural key, the vendor, service, contract and invoice importers
overwrite only the fields whose converted value is neither `None` nor
the empty string, so a blank cell keeps the stored value — with one
exception: the invoice importer's `total_amount` is always overwritten
(a blank cell becomes `Decimal("0")`).  The cost-center importer instead
overwrites `name`, `business_unit` and `region` unconditionally with the
converted values, blank or not. -/
theorem c1_amended_update_overwrite_discipline :
    (∀ (v : Views.Vendor) (r : Views.VRow),
      Views.sv r "name" ≠ "" →
      Views.iexact v.name (Views.sv r "name") = true →
      "name" ∈ Views.rowKeys r →
      Views._import_vendors [v] [r] =
        .ok ([Views.applyVendorUpdate v r (Views.sv r "name")], 0, 1)) ∧
    (∀ (v : Views.Vendor) (r : Views.VRow) (name : String),
      (Views.applyVendorUpdate v r name).name = name ∧
      (Views.applyVendorUpdate v r name).vendor_type =
        (if Views.sv r "vendor_type" ≠ "" then Views.sv r "vendor_type" else v.vendor_type) ∧
      (Views.applyVendorUpdate v r name).tags =
        (if Views.sv r "tags" ≠ "" then Views.sv r "tags" else v.tags) ∧
      (Views.applyVendorUpdate v r name).primary_contact_name =
        (if Views.sv r "primary_contact_name" ≠ "" then Views.sv r "primary_contact_name"
         else v.primary_contact_name) ∧
      (Views.applyVendorUpdate v r name).primary_contact_email =
        (if Views.sv r "primary_contact_email" ≠ "" then Views.sv r "primary_contact_email"
         else v.primary_contact_email) ∧
      (Views.applyVendorUpdate v r name).website =
        (if Views.sv r "website" ≠ "" then Views.sv r "website" else v.website) ∧
      (Views.applyVendorUpdate v r name).notes =
        (if Views.sv r "notes" ≠ "" then Views.sv r "notes" else v.notes)) ∧
    (∀ (cc : Views.CostCenter) (r : Views.VRow),
      Views.sv r "code" ≠ "" → Views.sv r "name" ≠ "" →
      cc.code = Views.sv r "code" →
      "code" ∈ Views.rowKeys r → "name" ∈ Views.rowKeys r →
      Views._import_cost_centers [cc] [r] =
        .ok ([⟨cc.code, Views.sv r "name", Views.sv r "business_unit",
              Views.sv r "region"⟩], 0, 1)) ∧
    (∀ (v : Views.Vendor) (s0 : Views.Service) (r : Views.VRow) (lp : Option Rat),
      Views.sv r "vendor_name" ≠ "" → Views.sv r "name" ≠ "" →
      Views.iexact v.name (Views.sv r "vendor_name") = true →
      s0.vendorIdx = 0 → Views.iexact s0.name (Views.sv r "name") = true →
      Views.serviceListPrice r = .ok lp →
      "vendor_name" ∈ Views.rowKeys r → "name" ∈ Views.rowKeys r →
      Views._import_services [v] [s0] [r] =
        .ok ([Views.applyServiceUpdate s0 r (Views.sv r "name") lp], 0, 1)) ∧
    (∀ (s0 : Views.Service) (r : Views.VRow) (name : String) (lp : Option Rat),
      (Views.applyServiceUpdate s0 r name lp).name = name ∧
      (Views.applyServiceUpdate s0 r name lp).category =
        (if Views.sv r "category" ≠ "" then Views.sv r "category" else s0.category) ∧
      (Views.applyServiceUpdate s0 r name lp).service_code =
        (if Views.sv r "service_code" ≠ "" then Views.sv r "service_code"
         else s0.service_code) ∧
      (Views.applyServiceUpdate s0 r name lp).default_currency =
        (if Views.sv r "default_currency" ≠ "" then Views.sv r "default_currency"
         else s0.default_currency) ∧
      (Views.applyServiceUpdate s0 r name lp).default_billing_frequency =
        (if Views.sv r "default_billing_frequency" ≠ "" then
          Views.sv r "default_billing_frequency"
         else s0.default_billing_frequency) ∧
      (Views.applyServiceUpdate s0 r name lp).owner_display =
        (if Views.sv r "owner_display" ≠ "" then Views.sv r "owner_display"
         else s0.owner_display) ∧
      (Views.applyServiceUpdate s0 r name lp).allocation_split =
        (if Views.sv r "allocation_split" ≠ "" then Views.sv r "allocation_split"
         else s0.allocation_split) ∧
      (Views.applyServiceUpdate s0 r name lp).list_price =
        (match lp with | some q => some q | Option.none => s0.list_price)) ∧
    (∀ (uu : Nat) (v : Views.Vendor) (ct : Views.Contract) (r : Views.VRow)
      (dfl : Views.ContractDefaults),
      Views.sv r "vendor_name" ≠ "" → Views.sv r "contract_name" ≠ "" →
      Views.iexact v.name (Views.sv r "vendor_name") = true →
      Views.contractMatch uu 0 (Views.sv r "contract_name") (Views.sv r "contract_id") ct =
        true →
      Views.contractRowDefaults r (Views.sv r "contract_id") (Views.sv r "contract_name") =
        .ok dfl →
      Views.noticeCheck dfl (some ct) (Views.sv r "contract_name") = .ok () →
      "vendor_name" ∈ Views.rowKeys r → "contract_name" ∈ Views.rowKeys r →
      Views._import_contracts uu [v] [ct] [r] =
        .ok ([Views.applyContractUpdate ct 0 (Views.sv r "contract_name") uu dfl], 0, 1)) ∧
    (∀ (ct : Views.Contract) (vi : Nat) (name : String) (uploader : Nat)
      (dfl : Views.ContractDefaults),
      (Views.applyContractUpdate ct vi name uploader dfl).contract_name =
        (if name ≠ "" then name else ct.contract_name) ∧
      (Views.applyContractUpdate ct vi name uploader dfl).contract_id =
        (if dfl.contract_id ≠ "" then dfl.contract_id else ct.contract_id) ∧
      (Views.applyContractUpdate ct vi name uploader dfl).contract_type =
        (if dfl.contract_type ≠ "" then dfl.contract_type else ct.contract_type) ∧
      (Views.applyContractUpdate ct vi name uploader dfl).entity =
        (if dfl.entity ≠ "" then dfl.entity else ct.entity) ∧
      (Views.applyContractUpdate ct vi name uploader dfl).currency =
        (if dfl.currency ≠ "" then dfl.currency else ct.currency) ∧
      (Views.applyContractUpdate ct vi name uploader dfl).status =
        (if dfl.status ≠ "" then dfl.status else ct.status) ∧
      (Views.applyContractUpdate ct vi name uploader dfl).uploaded_by = uploader ∧
      (Views.applyContractUpdate ct vi name uploader dfl).annual_value =
        (match dfl.annual_value with | some q => some q | Option.none => ct.annual_value) ∧
      (Views.applyContractUpdate ct vi name uploader dfl).start_date =
        (match dfl.start_date with | some d => some d | Option.none => ct.start_date) ∧
      (Views.applyContractUpdate ct vi name uploader dfl).end_date =
        (match dfl.end_date with | some d => some d | Option.none => ct.end_date) ∧
      (Views.applyContractUpdate ct vi name uploader dfl).renewal_date =
        (match dfl.renewal_date with | some d => some d | Option.none => ct.renewal_date) ∧
      (Views.applyContractUpdate ct vi name uploader dfl).notice_period_days =
        (match dfl.notice_period_days with
         | some n => some n | Option.none => ct.notice_period_days) ∧
      (Views.applyContractUpdate ct vi name uploader dfl).notice_date =
        (match dfl.notice_date with | some d => some d | Option.none => ct.notice_date)) ∧
    (∀ (uu : Nat) (v : Views.Vendor) (cts : List Views.Contract) (inv : Views.Invoice)
      (r : Views.VRow) (d : Views.InvoiceDefaults),
      Views.sv r "vendor_name" ≠ "" → Views.sv r "invoice_number" ≠ "" →
      Views.iexact v.name (Views.sv r "vendor_name") = true →
      inv.owner = uu → inv.vendorIdx = 0 →
      Views.iexact inv.invoice_number (Views.sv r "invoice_number") = true →
      Views.invoiceRowDefaults r (Views.sv r "currency")
        (Views.invoiceContractLookup uu cts 0 (Views.sv r "contract_name")) = .ok d →
      "vendor_name" ∈ Views.rowKeys r → "invoice_number" ∈ Views.rowKeys r →
      "invoice_date" ∈ Views.rowKeys r → "currency" ∈ Views.rowKeys r →
      "total_amount" ∈ Views.rowKeys r →
      Views._import_invoices uu [v] cts [inv] [r] =
        .ok ([Views.applyInvoiceUpdate inv d (Views.sv r "invoice_number")], 0, 1)) ∧
    (∀ (inv : Views.Invoice) (d : Views.InvoiceDefaults) (n : String),
      (Views.applyInvoiceUpdate inv d n).invoice_number = n ∧
      (Views.applyInvoiceUpdate inv d n).invoice_date =
        (match d.invoice_date with | some x => some x | Option.none => inv.invoice_date) ∧
      (Views.applyInvoiceUpdate inv d n).currency =
        (if d.currency ≠ "" then d.currency else inv.currency) ∧
      (Views.applyInvoiceUpdate inv d n).total_amount = d.total_amount ∧
      (Views.applyInvoiceUpdate inv d n).notes =
        (if d.notes ≠ "" then d.notes else inv.notes) ∧
      (Views.applyInvoiceUpdate inv d n).contractIdx =
        (match d.contract with | some c => some c | Option.none => inv.contractIdx) ∧
      (Views.applyInvoiceUpdate inv d n).tax_amount =
        (match d.tax_amount with | some q => some q | Option.none => inv.tax_amount) ∧
      (Views.applyInvoiceUpdate inv d n).period_start =
        (match d.period_start with | some x => some x | Option.none => inv.period_start) ∧
      (Views.applyInvoiceUpdate inv d n).period_end =
        (match d.period_end with | some x => some x | Option.none => inv.period_end)) :=
  ⟨Views.importVendors_single_update,
   fun _ _ _ => ⟨rfl, rfl, rfl, rfl, rfl, rfl, rfl⟩,
   Views.importCostCenters_single_update,
   Views.importServices_single_update,
   fun _ _ _ _ => ⟨rfl, rfl, rfl, rfl, rfl, rfl, rfl, rfl⟩,
   Views.importContracts_single_update,
   fun _ _ _ _ _ =>
     ⟨rfl, rfl, rfl, rfl, rfl, rfl, rfl, rfl, rfl, rfl, rfl, rfl, rfl⟩,
   Views.importInvoices_single_update,
   fun _ _ _ => ⟨rfl, rfl, rfl, rfl, rfl, rfl, rfl, rfl, rfl⟩⟩

/-- Concrete instances of C1 (amended): a vendor update keeps `notes`
over a blank cell and overwrites `tags`; a cost-center update erases
`region` on a blank cell; an invoice update with a blank `total_amount`
stores zero while keeping `currency` and `invoice_date`. -/
theorem c1_amended_update_overwrite_discipline_witness :
    Views._import_vendors
      [⟨"acme", "t", "", "", "", "", "old"⟩]
      [[("name", PyVal.str "Acme"), ("tags", PyVal.str "x"), ("notes", PyVal.str "")]] =
      .ok ([⟨"Acme", "t", "x", "", "", "", "old"⟩], 0, 1) ∧
    Views._import_cost_centers
      [⟨"C1", "Old", "BU", "EMEA"⟩]
      [[("code", PyVal.str "C1"), ("name", PyVal.str "New"),
        ("business_unit", PyVal.str ""), ("region", PyVal.str "")]] =
      .ok ([⟨"C1", "New", "", ""⟩], 0, 1) ∧
    Views._import_invoices 7
      [⟨"Acme", "", "", "", "", "", ""⟩] []
      [⟨7, 0, Option.none, "inv-1", some ⟨2025, 1, 1⟩, "USD", 100, some 5,
        Option.none, Option.none, "n"⟩]
      [[("vendor_name", PyVal.str "Acme"), ("invoice_number", PyVal.str "INV-1"),
        ("invoice_date", PyVal.str ""), ("currency", PyVal.str ""),
        ("total_amount", PyVal.str "")]] =
      .ok ([⟨7, 0, Option.none, "INV-1", some ⟨2025, 1, 1⟩, "USD", 0, some 5,
        Option.none, Option.none, "n"⟩], 0, 1) := by
  refine ⟨?_, ?_, ?_⟩
  · exact c1_amended_update_overwrite_discipline.1
      ⟨"acme", "t", "", "", "", "", "old"⟩
      [("name", PyVal.str "Acme"), ("tags", PyVal.str "x"), ("notes", PyVal.str "")]
      (by decide) (by decide) (by decide)
  · exact c1_amended_update_overwrite_discipline.2.2.1
      ⟨"C1", "Old", "BU", "EMEA"⟩
      [("code", PyVal.str "C1"), ("name", PyVal.str "New"),
       ("business_unit", PyVal.str ""), ("region", PyVal.str "")]
      (by decide) (by decide) (by decide) (by decide) (by decide)
  · exact c1_amended_update_overwrite_discipline.2.2.2.2.2.2.2.1 7
      ⟨"Acme", "", "", "", "", "", ""⟩ []
      ⟨7, 0, Option.none, "inv-1", some ⟨2025, 1, 1⟩, "USD", 100, some 5,
        Option.none, Option.none, "n"⟩
      [("vendor_name", PyVal.str "Acme"), ("invoice_number", PyVal.str "INV-1"),
       ("invoice_date", PyVal.str ""), ("currency", PyVal.str ""),
       ("total_amount", PyVal.str "")]
      ⟨Option.none, "", 0, "", Option.none, Option.none, Option.none, Option.none⟩
      (by decide) (by decide) (by decide) rfl rfl (by decide) rfl
      (by decide) (by decide) (by decide) (by decide) (by decide)
